import Mathlib

/-!
# E-commerce cart: stock reservation and total recalculation

A shallow embedding of `24110140_DoanTrongTrung_Week6_Assignment.cpp`.

Modelling conventions

* `shared_ptr<Product>` is an address (`Ptr`); a pointer that may be null is an
  `Option Ptr`.  The objects live in a store `Heap : Ptr → ProductObj`, and every
  method that mutates a product through a pointer returns the new store.
* `ProductObj` is the dynamic type of the pointee: a `Product` or an `Electronics`.
  Virtual calls dispatch on it.
* `double` is modelled by `ℚ` (exact arithmetic).
* `int` is the 32-bit two's-complement type.  An `int` value is an `Int` between `INT_MIN`
  and `INT_MAX`; the result of an `int` addition is `int32` of the exact sum, that is, the
  exact sum reduced modulo `2^32` into that range.  The `stock` member has the bounded type
  `CInt`, so every store holds stocks in range; arguments and entry quantities are `Int`s and
  the program only ever puts values in range there.  The negation `-quantity` in
  `operator+=` is taken of a quantity between 1 and `INT_MAX` and is exact, and the order
  counter is incremented exactly (it is far from `INT_MAX` in every execution considered).
* Console output (`cout`) is not part of the state and is dropped.
* Loops over a `vector` are folds whose accumulator holds the variables the loop
  body assigns.
-/

namespace ECommerce

/-! ## 32-bit `int` -/

/-- Largest `int`. -/
def INT_MAX : Int := 2147483647

/-- Smallest `int`. -/
def INT_MIN : Int := -2147483648

/-- The `int` that a 32-bit two's-complement computation yields when the exact result is
`x`: `x` reduced modulo `2^32` into `INT_MIN .. INT_MAX`. It is `x` itself when `x` is in
range. -/
def int32 (x : Int) : Int := (x + 2147483648) % 4294967296 - 2147483648

/-- An `int` object: an integer in the 32-bit range. -/
structure CInt where
  val : Int
  lo : -2147483648 ≤ val
  hi : val ≤ 2147483647
deriving DecidableEq

/-- Store an integer into an `int` object (conversion modulo `2^32`). -/
def CInt.ofInt (x : Int) : CInt :=
  ⟨int32 x, by unfold int32; omega, by unfold int32; omega⟩

instance (n : Nat) : OfNat CInt n := ⟨CInt.ofInt (n : Int)⟩

instance : Neg CInt := ⟨fun a => CInt.ofInt (-a.val)⟩

/-! ## InventoryList<T> -/

/-- Template class `InventoryList<T>`: a wrapper around `vector<T> items`. -/
structure InventoryList (α : Type) where
  items : List α
deriving DecidableEq

namespace InventoryList

/-- Default constructor `InventoryList<T>()`: no items. -/
def new {α : Type} : InventoryList α := ⟨[]⟩

/-- Method `addItem`: `items.push_back(item)`. -/
def addItem {α : Type} (l : InventoryList α) (item : α) : InventoryList α :=
  ⟨l.items ++ [item]⟩

/-- Method `removeItem`: erase the first element that `std::find` reports equal to `item`
under the element type's `operator==` (`eq`), and tell whether there was one. -/
def removeItem {α : Type} (eq : α → α → Bool) (l : InventoryList α) (item : α) :
    Bool × InventoryList α :=
  match l.items.findIdx? (fun x => eq x item) with
  | some i => (true, ⟨l.items.eraseIdx i⟩)
  | none => (false, l)

/-- Method `searchItem`: whether `std::find` reaches an element equal to `item`. -/
def searchItem {α : Type} (eq : α → α → Bool) (l : InventoryList α) (item : α) : Bool :=
  l.items.any (fun x => eq x item)

/-- Method `getAllItems`: a copy of the vector. -/
def getAllItems {α : Type} (l : InventoryList α) : List α := l.items

/-- Method `size`. -/
def size {α : Type} (l : InventoryList α) : Nat := l.items.length

/-- Method `empty`. -/
def empty {α : Type} (l : InventoryList α) : Bool := l.items.isEmpty

end InventoryList

/-! ## Product and Electronics -/

/-- Data members of `class Product`; `Product.mk` is its four-argument constructor,
which stores its arguments without validation. -/
structure Product where
  id : Int
  name : String
  price : ℚ
  stock : CInt
deriving DecidableEq

/-- Data members of `class Electronics : public Product`. -/
structure Electronics extends Product where
  warrantyPeriod : Int
  brand : String
deriving DecidableEq

namespace Product

/-- Method `Product::setPrice`. -/
def setPrice (p : Product) (newPrice : ℚ) : Product :=
  if newPrice ≥ 0 then { p with price := newPrice } else p

/-- Method `Product::setStock`. -/
def setStock (p : Product) (newStock : Int) : Product :=
  if newStock ≥ 0 then { p with stock := CInt.ofInt newStock } else p

/-- Method `Product::updateStock` (the base implementation of the virtual method);
`stock + quantity` is an `int` addition. -/
def updateStock (p : Product) (quantity : Int) : Product :=
  if int32 (p.stock.val + quantity) ≥ 0 then
    { p with stock := CInt.ofInt (p.stock.val + quantity) }
  else p

/-- Method `Product::applyDiscount` (base implementation): the discounted price, or the
price itself when the rate is outside `[0, 1]`; the object is not assigned to. -/
def applyDiscount (p : Product) (discountRate : ℚ) : ℚ :=
  if discountRate ≥ 0 ∧ discountRate ≤ 1 then p.price * (1 - discountRate) else p.price

end Product

namespace Electronics

/-- Method `Electronics::updateStock` (override; the handling-fee line only prints);
`stock + quantity` is an `int` addition. -/
def updateStock (e : Electronics) (quantity : Int) : Electronics :=
  if int32 (e.stock.val + quantity) ≥ 0 then
    { e with stock := CInt.ofInt (e.stock.val + quantity) }
  else e

/-- Method `Electronics::applyDiscount` (override): 5% bonus on the rate, capped at 1. -/
def applyDiscount (e : Electronics) (discountRate : ℚ) : ℚ :=
  if discountRate ≥ 0 ∧ discountRate ≤ 1 then e.price * (1 - min (discountRate + 0.05) 1)
  else e.price

end Electronics

/-- What a `shared_ptr<Product>` can point to: an object whose dynamic type is
`Product` or `Electronics`. -/
inductive ProductObj where
  | product (p : Product)
  | electronics (e : Electronics)
deriving DecidableEq

namespace ProductObj

/-- The `Product` base sub-object. -/
def base : ProductObj → Product
  | product p => p
  | electronics e => e.toProduct

/-- Non-virtual `getId`. -/
def getId (o : ProductObj) : Int := o.base.id

/-- Non-virtual `getName`. -/
def getName (o : ProductObj) : String := o.base.name

/-- Non-virtual `getPrice`. -/
def getPrice (o : ProductObj) : ℚ := o.base.price

/-- Non-virtual `getStock`. -/
def getStock (o : ProductObj) : Int := o.base.stock.val

/-- Non-virtual `setPrice`, acting on the base sub-object. -/
def setPrice : ProductObj → ℚ → ProductObj
  | product p, x => product (p.setPrice x)
  | electronics e, x => electronics { e with toProduct := e.toProduct.setPrice x }

/-- Non-virtual `setStock`, acting on the base sub-object. -/
def setStock : ProductObj → Int → ProductObj
  | product p, x => product (p.setStock x)
  | electronics e, x => electronics { e with toProduct := e.toProduct.setStock x }

/-- Virtual `updateStock`: dispatch on the dynamic type. -/
def updateStock : ProductObj → Int → ProductObj
  | product p, q => product (p.updateStock q)
  | electronics e, q => electronics (e.updateStock q)

/-- Virtual `applyDiscount`: dispatch on the dynamic type. -/
def applyDiscount : ProductObj → ℚ → ℚ
  | product p, r => p.applyDiscount r
  | electronics e, r => e.applyDiscount r

end ProductObj

/-- Address of a product object. -/
abbrev Ptr := Nat

/-- The store: the object each address holds. -/
abbrev Heap := Ptr → ProductObj

/-- Call `p->updateStock(quantity)` through a non-null pointer `p`. -/
def Heap.updateStock (h : Heap) (p : Ptr) (quantity : Int) : Heap :=
  Function.update h p ((h p).updateStock quantity)

/-- Call `p->setStock(newStock)` through a non-null pointer `p`. -/
def Heap.setStock (h : Heap) (p : Ptr) (newStock : Int) : Heap :=
  Function.update h p ((h p).setStock newStock)

/-- Call `p->setPrice(newPrice)` through a non-null pointer `p`. -/
def Heap.setPrice (h : Heap) (p : Ptr) (newPrice : ℚ) : Heap :=
  Function.update h p ((h p).setPrice newPrice)

/-! ## CartItem -/

/-- Data members of `class CartItem`; `CartItem.mk` is its constructor. -/
structure CartItem where
  product : Ptr
  quantity : Int
deriving DecidableEq

namespace CartItem

/-- Method `getProduct`. -/
def getProduct (c : CartItem) : Ptr := c.product

/-- Method `getQuantity`. -/
def getQuantity (c : CartItem) : Int := c.quantity

/-- Method `setQuantity`: only a positive quantity is stored. -/
def setQuantity (c : CartItem) (qty : Int) : CartItem :=
  if qty > 0 then { c with quantity := qty } else c

/-- Method `getTotalPrice`: `product->getPrice() * quantity`. -/
def getTotalPrice (h : Heap) (c : CartItem) : ℚ :=
  (h c.product).getPrice * (c.quantity : ℚ)

end CartItem

/-! ## ShoppingCart -/

/-- Data members of `class ShoppingCart`. -/
structure ShoppingCart where
  cartItems : InventoryList CartItem
  totalAmount : ℚ
deriving DecidableEq

namespace ShoppingCart

/-- Constructor `ShoppingCart()`. -/
def new : ShoppingCart := ⟨InventoryList.new, 0⟩

/-- Private method `calculateTotal`: reset the total and add up the line totals. -/
def calculateTotal (h : Heap) (c : ShoppingCart) : ShoppingCart :=
  { c with totalAmount :=
      c.cartItems.getAllItems.foldl (fun total item => total + item.getTotalPrice h) 0 }

/-- Body of the `for` loop of `operator+=`, on the loop variables `found` and
`cartItems`; `item.getQuantity() + quantity` is an `int` addition. -/
def addStep (h : Heap) (product : Ptr) (quantity : Int)
    (acc : Bool × InventoryList CartItem) (item : CartItem) : Bool × InventoryList CartItem :=
  if (h item.getProduct).getId = (h product).getId then
    (true, acc.2.addItem (item.setQuantity (int32 (item.getQuantity + quantity))))
  else
    (acc.1, acc.2.addItem item)

/-- Member `operator+=` on the pair (product, quantity). -/
def operatorAddAssign (s : Heap × ShoppingCart) (product : Option Ptr) (quantity : Int) :
    Heap × ShoppingCart :=
  match product with
  | none => s
  | some p =>
    if quantity ≤ 0 then s
    else if (s.1 p).getStock < quantity then s
    else
      let items := s.2.cartItems.getAllItems
      let r := items.foldl (addStep s.1 p quantity) (false, InventoryList.new)
      let cartItems := if !r.1 then r.2.addItem (CartItem.mk p quantity) else r.2
      let h := s.1.updateStock p (-quantity)
      (h, calculateTotal h { s.2 with cartItems := cartItems })

/-- Body of the `for` loop of `operator-=`, on the store and the loop variables `found`
and `cartItems`. -/
def removeStep (product : Ptr) (acc : Heap × Bool × InventoryList CartItem) (item : CartItem) :
    Heap × Bool × InventoryList CartItem :=
  if (acc.1 item.getProduct).getId = (acc.1 product).getId then
    (acc.1.updateStock product item.getQuantity, true, acc.2.2)
  else
    (acc.1, acc.2.1, acc.2.2.addItem item)

/-- Member `operator-=`. -/
def operatorSubAssign (s : Heap × ShoppingCart) (product : Option Ptr) : Heap × ShoppingCart :=
  match product with
  | none => s
  | some p =>
    let items := s.2.cartItems.getAllItems
    let r := items.foldl (removeStep p) (s.1, false, InventoryList.new)
    (r.1, calculateTotal r.1 { s.2 with cartItems := r.2.2 })

/-- Method `ShoppingCart::applyDiscount`: the discounted total, or the total itself when the
rate is outside `[0, 1]`; no member is assigned to. -/
def applyDiscount (c : ShoppingCart) (discountRate : ℚ) : ℚ :=
  if discountRate ≥ 0 ∧ discountRate ≤ 1 then c.totalAmount - c.totalAmount * discountRate
  else c.totalAmount

/-- Method `removeProduct`: `*this -= product; return true;`. -/
def removeProduct (s : Heap × ShoppingCart) (product : Option Ptr) :
    Bool × (Heap × ShoppingCart) :=
  (true, operatorSubAssign s product)

/-- Method `getTotalAmount`. -/
def getTotalAmount (c : ShoppingCart) : ℚ := c.totalAmount

/-- Method `getItemCount`. -/
def getItemCount (c : ShoppingCart) : Nat := c.cartItems.size

/-- Method `isEmpty`. -/
def isEmpty (c : ShoppingCart) : Bool := c.cartItems.empty

/-- Method `getCartItems`. -/
def getCartItems (c : ShoppingCart) : List CartItem := c.cartItems.getAllItems

/-- Method `clearCart`: give every entry's quantity back, then reset the cart. -/
def clearCart (s : Heap × ShoppingCart) : Heap × ShoppingCart :=
  (s.2.cartItems.getAllItems.foldl
      (fun h item => h.updateStock item.getProduct item.getQuantity) s.1,
    { cartItems := InventoryList.new, totalAmount := 0 })

end ShoppingCart

/-- Method `InventoryList<shared_ptr<Product>>::searchById`: the first stored pointer whose
product has the given id, `nullptr` when there is none. -/
def InventoryList.searchById (h : Heap) (l : InventoryList Ptr) (id : Int) : Option Ptr :=
  l.items.find? (fun item => decide ((h item).getId = id))

/-! ## Order -/

/-- Data members of `class Order`; the static `nextOrderId` is part of `System`. -/
structure Order where
  orderId : Int
  orderItems : List CartItem
  totalAmount : ℚ
  status : String
  orderDate : String
deriving DecidableEq

/-- Constructor `Order(const ShoppingCart&)`: returns the order and the incremented
static counter. -/
def Order.new (nextOrderId : Int) (cart : ShoppingCart) : Order × Int :=
  ({ orderId := nextOrderId
     orderItems := cart.getCartItems
     totalAmount := cart.getTotalAmount
     status := "Confirmed"
     orderDate := "2024-01-15" },
   nextOrderId + 1)

/-! ## ECommerceManager -/

/-- Data members of `class ECommerceManager`. -/
structure ECommerceManager where
  inventory : InventoryList Ptr
  cart : ShoppingCart
  orderHistory : List Order
deriving DecidableEq

/-- Program state seen by the manager's methods: the store of product objects, the static
counter `Order::nextOrderId`, and the manager object. -/
structure System where
  heap : Heap
  nextOrderId : Int
  manager : ECommerceManager

namespace ECommerceManager

/-- Initial program state over a given store: `Order::nextOrderId = 1` and a
default-constructed manager. -/
def init (h : Heap) : System :=
  { heap := h, nextOrderId := 1,
    manager := { inventory := InventoryList.new, cart := ShoppingCart.new, orderHistory := [] } }

/-- Method `addProductToInventory`. -/
def addProductToInventory (s : System) (product : Option Ptr) : System :=
  match product with
  | some p => { s with manager := { s.manager with inventory := s.manager.inventory.addItem p } }
  | none => s

/-- Method `addToCart`. -/
def addToCart (s : System) (productId : Int) (quantity : Int) : System :=
  match s.manager.inventory.searchById s.heap productId with
  | some p =>
    let r := ShoppingCart.operatorAddAssign (s.heap, s.manager.cart) (some p) quantity
    { s with heap := r.1, manager := { s.manager with cart := r.2 } }
  | none => s

/-- Method `removeFromCart`. -/
def removeFromCart (s : System) (productId : Int) : System :=
  match s.manager.inventory.searchById s.heap productId with
  | some p =>
    let r := ShoppingCart.operatorSubAssign (s.heap, s.manager.cart) (some p)
    { s with heap := r.1, manager := { s.manager with cart := r.2 } }
  | none => s

/-- Method `applyCartDiscount`: calls `cart.applyDiscount(rate)` and drops the result. -/
def applyCartDiscount (s : System) (_rate : ℚ) : System := s

/-- Method `checkout`. -/
def checkout (s : System) : System :=
  if s.manager.cart.isEmpty then s
  else
    let o := Order.new s.nextOrderId s.manager.cart
    let r := ShoppingCart.clearCart (s.heap, s.manager.cart)
    { heap := r.1
      nextOrderId := o.2
      manager := { s.manager with orderHistory := s.manager.orderHistory ++ [o.1], cart := r.2 } }

end ECommerceManager

/-! ## Vocabulary of the statements -/

/-- Sum over the entries of `product.price * quantity`, at the prices of store `h`. -/
def lineTotal (h : Heap) (items : List CartItem) : ℚ :=
  (items.map (fun e => (h e.product).getPrice * (e.quantity : ℚ))).sum

/-- Product ids of the entries, in entry order. -/
def entryIds (h : Heap) (items : List CartItem) : List Int :=
  items.map (fun e => (h e.product).getId)

/-- The comparison `*(item.getProduct()) == *product` (`Product::operator==`, by id). -/
def sameProduct (h : Heap) (product : Ptr) (item : CartItem) : Bool :=
  decide ((h item.product).getId = (h product).getId)

/-- One call on a cart: `operator+=`, `operator-=` or `clearCart`. -/
inductive CartOp where
  | add (product : Option Ptr) (quantity : Int)
  | remove (product : Option Ptr)
  | clear

/-- Effect of one call on the store and the cart. -/
def CartOp.apply (s : Heap × ShoppingCart) : CartOp → Heap × ShoppingCart
  | CartOp.add product quantity => ShoppingCart.operatorAddAssign s product quantity
  | CartOp.remove product => ShoppingCart.operatorSubAssign s product
  | CartOp.clear => ShoppingCart.clearCart s

/-- The state reached from a freshly constructed cart over store `h` by the calls `ops`. -/
def runCartOps (h : Heap) (ops : List CartOp) : Heap × ShoppingCart :=
  ops.foldl CartOp.apply (h, ShoppingCart.new)

/-- One direct stock mutation on an item: `updateStock(delta)` or `setStock(s)`. -/
inductive StockOp where
  | updateStock (delta : Int)
  | setStock (newStock : Int)

/-- Effect of one stock mutation on an object (`updateStock` is virtual, `setStock` is not). -/
def StockOp.apply (o : ProductObj) : StockOp → ProductObj
  | StockOp.updateStock delta => o.updateStock delta
  | StockOp.setStock newStock => o.setStock newStock

/-- The object after the calls `ops`, in order. -/
def runStockOps (o : ProductObj) (ops : List StockOp) : ProductObj :=
  ops.foldl StockOp.apply o

/-- Call `p->applyDiscount(rate)` through a non-null pointer: the returned value and the
store after the call. Neither implementation assigns to a member, so the store is the one
before the call. -/
def Heap.applyDiscount (h : Heap) (p : Ptr) (discountRate : ℚ) : ℚ × Heap :=
  ((h p).applyDiscount discountRate, h)

/-- Call `cart.applyDiscount(rate)`: the returned value and the state after the call. The
method assigns to no member and calls nothing on the products. -/
def ShoppingCart.applyDiscountCall (s : Heap × ShoppingCart) (discountRate : ℚ) :
    ℚ × (Heap × ShoppingCart) :=
  (s.2.applyDiscount discountRate, s)

/-- One call on the manager. -/
inductive ManagerOp where
  | addProductToInventory (product : Option Ptr)
  | addToCart (productId : Int) (quantity : Int)
  | removeFromCart (productId : Int)
  | applyCartDiscount (rate : ℚ)
  | checkout

/-- Effect of one manager call on the program state. -/
def ManagerOp.apply (s : System) : ManagerOp → System
  | ManagerOp.addProductToInventory product => ECommerceManager.addProductToInventory s product
  | ManagerOp.addToCart productId quantity => ECommerceManager.addToCart s productId quantity
  | ManagerOp.removeFromCart productId => ECommerceManager.removeFromCart s productId
  | ManagerOp.applyCartDiscount rate => ECommerceManager.applyCartDiscount s rate
  | ManagerOp.checkout => ECommerceManager.checkout s

/-- The program state after the manager calls `ops`, in order, from state `s`. -/
def runManagerOps (s : System) (ops : List ManagerOp) : System :=
  ops.foldl ManagerOp.apply s

/-- Ids of the orders of the history, in history order. -/
def orderIds (s : System) : List Int :=
  s.manager.orderHistory.map Order.orderId

/-- One direct mutation of a catalog item through its pointer. -/
inductive CatalogOp where
  | setPrice (p : Ptr) (newPrice : ℚ)
  | setStock (p : Ptr) (newStock : Int)
  | updateStock (p : Ptr) (delta : Int)

/-- Effect of a direct catalog mutation on the program state: only the store changes. -/
def CatalogOp.apply (s : System) : CatalogOp → System
  | CatalogOp.setPrice p x => { s with heap := s.heap.setPrice p x }
  | CatalogOp.setStock p x => { s with heap := s.heap.setStock p x }
  | CatalogOp.updateStock p d => { s with heap := s.heap.updateStock p d }

/-- Whether the mutation is a `setPrice`. -/
def CatalogOp.isSetPrice : CatalogOp → Bool
  | CatalogOp.setPrice _ _ => true
  | _ => false

/-- The program state after the catalog mutations `ops`, in order, from state `s`. -/
def runCatalogOps (s : System) (ops : List CatalogOp) : System :=
  ops.foldl CatalogOp.apply s

/-- What is read through an order entry (as `displayItem` does through
`product->...`): product name, unit price, stock and line total, in store `h`. -/
def CartItem.recorded (h : Heap) (e : CartItem) : String × ℚ × Int × ℚ :=
  ((h e.product).getName, (h e.product).getPrice, (h e.product).getStock, e.getTotalPrice h)

/-- The catalog after `addProductToInventory` on each argument in turn, from a fresh
manager. -/
def addAllToInventory (h : Heap) (products : List (Option Ptr)) : System :=
  products.foldl ECommerceManager.addProductToInventory (ECommerceManager.init h)

/-- Product ids of the catalog items, in catalog order. -/
def catalogIds (s : System) : List Int :=
  s.manager.inventory.items.map (fun p => (s.heap p).getId)

/-- In-place merge, in the spec's words: increase the quantity of the first entry with
`p`'s id by `q`, or append `(p, q)` if there is none. This is the reference that the
rebuild loop of `operator+=` is compared with. -/
def inPlaceMerge (h : Heap) (p : Ptr) (q : Int) : List CartItem → List CartItem
  | [] => [CartItem.mk p q]
  | e :: es =>
    if (h e.product).getId = (h p).getId then { e with quantity := e.quantity + q } :: es
    else e :: inPlaceMerge h p q es

/-- Quantity the cart holds for a product id: the sum of the quantities of the entries
whose product has that id. -/
def heldQuantity (h : Heap) (items : List CartItem) (id : Int) : Int :=
  (items.map (fun e => if (h e.product).getId = id then e.quantity else 0)).sum

/-- Quantity the cart holds for a product object: the sum of the quantities of the entries
that point to it. -/
def heldAt (a : Ptr) (items : List CartItem) : Int :=
  (items.map (fun e => if e.product = a then e.quantity else 0)).sum

/-- The reservation invariant of a manager state relative to the store `init` it started
from: every cart entry points to the product that `searchById` returns for its id, entry
ids are pairwise distinct, quantities are positive, the products in the cart have stock
`>= 0`, and for every product object its stock plus the quantity held for it is its stock
in `init`. -/
structure Reserved (init : Heap) (s : System) : Prop where
  searchable : ∀ e ∈ s.manager.cart.cartItems.items,
    s.manager.inventory.searchById s.heap (s.heap e.product).getId = some e.product
  unique : (entryIds s.heap s.manager.cart.cartItems.items).Nodup
  positive : ∀ e ∈ s.manager.cart.cartItems.items, 0 < e.quantity
  stocked : ∀ e ∈ s.manager.cart.cartItems.items, 0 ≤ (s.heap e.product).getStock
  conserved : ∀ a, (s.heap a).getStock + heldAt a s.manager.cart.cartItems.items
    = (init a).getStock

/-! ## Scenario data -/

/-- Store of the scenarios: item A (id 1, price 10, stock 5) at address 0 and an item B
(id 2, price 4, stock 7) at every other address. -/
def storeA : Heap := fun a =>
  if a = 0 then ProductObj.product (Product.mk 1 "A" 10 5)
  else ProductObj.product (Product.mk 2 "B" 4 7)

/-- The scenario state after `cart += (A, 3)` on a new cart. -/
def afterAdd3 : Heap × ShoppingCart :=
  ShoppingCart.operatorAddAssign (storeA, ShoppingCart.new) (some 0) 3

/-- The scenario state after `cart += (A, 3)` followed by `A.setPrice(20)`: the cart still
caches the total 30 computed at the old price. -/
def afterSetPrice : Heap × ShoppingCart :=
  (afterAdd3.1.setPrice 0 20, afterAdd3.2)

/-- Store of the overflow scenarios: P (id 1, price 10, stock `INT_MAX`) at address 0 and a
second object Q with the same id (id 1, price 10, stock 5) at every other address. -/
def storeMax : Heap := fun a =>
  if a = 0 then ProductObj.product (Product.mk 1 "P" 10 2147483647)
  else ProductObj.product (Product.mk 1 "Q" 10 5)

/-- The overflow scenario after `cart += (P, INT_MAX)` on a new cart: the cart holds the
entry (P, `INT_MAX`) and P.stock is 0. -/
def afterAddMax : Heap × ShoppingCart :=
  ShoppingCart.operatorAddAssign (storeMax, ShoppingCart.new) (some 0) 2147483647

/-- The overflow scenario after `cart += (Q, 1)` on a new cart: the cart holds the entry
(Q, 1), and P, which has the same id, still has stock `INT_MAX`. -/
def afterAddQ : Heap × ShoppingCart :=
  ShoppingCart.operatorAddAssign (storeMax, ShoppingCart.new) (some 1) 1

/-- The overflow scenario after `cart += (P, 1)` on a new cart followed by
`P.setStock(INT_MAX)`: the cart holds the entry (P, 1) and P.stock is `INT_MAX`. -/
def afterSetStockMax : Heap × ShoppingCart :=
  ((ShoppingCart.operatorAddAssign (storeMax, ShoppingCart.new) (some 0) 1).1.setStock 0
      2147483647,
    (ShoppingCart.operatorAddAssign (storeMax, ShoppingCart.new) (some 0) 1).2)

/-- The scenario manager: item A added to the inventory of a fresh manager. -/
def shopA : System :=
  ECommerceManager.addProductToInventory (ECommerceManager.init storeA) (some 0)

/-- The scenario manager after `addToCart(1, 3)`. -/
def shopAfterAdd : System := ECommerceManager.addToCart shopA 1 3

/-! ## Lemmas on `int` -/

theorem int32_of_range (x : Int) (h1 : -2147483648 ≤ x) (h2 : x ≤ 2147483647) :
    int32 x = x := by
  unfold int32; omega

theorem int32_le_max (x : Int) : int32 x ≤ 2147483647 := by
  unfold int32; omega

theorem int32_ge_min (x : Int) : -2147483648 ≤ int32 x := by
  unfold int32; omega

/-! ## Store lemmas -/

theorem ProductObj.getStock_le_max (o : ProductObj) : o.getStock ≤ 2147483647 := by
  cases o <;> simp only [ProductObj.getStock, ProductObj.base]
  · exact CInt.hi _
  · exact CInt.hi _

theorem ProductObj.getStock_ge_min (o : ProductObj) : -2147483648 ≤ o.getStock := by
  cases o <;> simp only [ProductObj.getStock, ProductObj.base]
  · exact CInt.lo _
  · exact CInt.lo _

theorem ProductObj.getId_updateStock (o : ProductObj) (q : Int) :
    (o.updateStock q).getId = o.getId := by
  cases o <;>
    simp only [ProductObj.updateStock, Product.updateStock, Electronics.updateStock,
      ProductObj.getId, ProductObj.base] <;> split <;> rfl

theorem ProductObj.getPrice_updateStock (o : ProductObj) (q : Int) :
    (o.updateStock q).getPrice = o.getPrice := by
  cases o <;>
    simp only [ProductObj.updateStock, Product.updateStock, Electronics.updateStock,
      ProductObj.getPrice, ProductObj.base] <;> split <;> rfl

theorem ProductObj.getStock_updateStock (o : ProductObj) (q : Int) :
    (o.updateStock q).getStock
      = if int32 (o.getStock + q) ≥ 0 then int32 (o.getStock + q) else o.getStock := by
  cases o <;>
    simp only [ProductObj.updateStock, Product.updateStock, Electronics.updateStock,
      ProductObj.getStock, ProductObj.base] <;> split <;> rfl

/-- An `updateStock` whose exact result is a non-negative `int` is accepted and exact. -/
theorem ProductObj.getStock_updateStock_fit (o : ProductObj) (q : Int)
    (h0 : 0 ≤ o.getStock + q) (h1 : o.getStock + q ≤ 2147483647) :
    (o.updateStock q).getStock = o.getStock + q := by
  rw [ProductObj.getStock_updateStock, int32_of_range _ (by omega) h1, if_pos h0]

theorem Heap.updateStock_same (h : Heap) (p : Ptr) (q : Int) :
    h.updateStock p q p = (h p).updateStock q := by
  simp [Heap.updateStock]

theorem Heap.updateStock_other (h : Heap) (p : Ptr) (q : Int) (a : Ptr) (ha : a ≠ p) :
    h.updateStock p q a = h a := by
  simp [Heap.updateStock, Function.update_noteq ha]

theorem Heap.updateStock_getId (h : Heap) (p : Ptr) (q : Int) (a : Ptr) :
    (h.updateStock p q a).getId = (h a).getId := by
  by_cases ha : a = p
  · subst ha; rw [Heap.updateStock_same, ProductObj.getId_updateStock]
  · rw [Heap.updateStock_other h p q a ha]

theorem Heap.updateStock_getPrice (h : Heap) (p : Ptr) (q : Int) (a : Ptr) :
    (h.updateStock p q a).getPrice = (h a).getPrice := by
  by_cases ha : a = p
  · subst ha; rw [Heap.updateStock_same, ProductObj.getPrice_updateStock]
  · rw [Heap.updateStock_other h p q a ha]

theorem sameProduct_updateStock (h : Heap) (a : Ptr) (q : Int) (p : Ptr) :
    sameProduct (h.updateStock a q) p = sameProduct h p := by
  funext item
  simp only [sameProduct, Heap.updateStock_getId]

theorem entryIds_updateStock (h : Heap) (a : Ptr) (q : Int) (items : List CartItem) :
    entryIds (h.updateStock a q) items = entryIds h items := by
  simp only [entryIds, Heap.updateStock_getId]

/-! ## The loops -/

theorem foldl_total (h : Heap) (items : List CartItem) (t : ℚ) :
    items.foldl (fun total item => total + CartItem.getTotalPrice h item) t
      = t + lineTotal h items := by
  induction items generalizing t with
  | nil => simp [lineTotal]
  | cons e es ih =>
    rw [List.foldl_cons, ih]
    simp only [lineTotal, List.map_cons, List.sum_cons, CartItem.getTotalPrice]
    ring

theorem calculateTotal_totalAmount (h : Heap) (c : ShoppingCart) :
    (ShoppingCart.calculateTotal h c).totalAmount = lineTotal h c.cartItems.items := by
  simp [ShoppingCart.calculateTotal, InventoryList.getAllItems, foldl_total]

theorem calculateTotal_cartItems (h : Heap) (c : ShoppingCart) :
    (ShoppingCart.calculateTotal h c).cartItems = c.cartItems := rfl

theorem foldl_addStep (h : Heap) (p : Ptr) (q : Int) (items : List CartItem)
    (acc : Bool × InventoryList CartItem) :
    items.foldl (ShoppingCart.addStep h p q) acc
      = (acc.1 || items.any (sameProduct h p),
         ⟨acc.2.items ++ items.map (fun e =>
            if sameProduct h p e then e.setQuantity (int32 (e.getQuantity + q)) else e)⟩) := by
  induction items generalizing acc with
  | nil => simp
  | cons e es ih =>
    rw [List.foldl_cons, ih]
    by_cases hm : (h e.product).getId = (h p).getId
    · simp [ShoppingCart.addStep, sameProduct, CartItem.getProduct, InventoryList.addItem, hm]
    · simp [ShoppingCart.addStep, sameProduct, CartItem.getProduct, InventoryList.addItem, hm]

/-- Stock given back to `p` by the matching entries, in entry order. -/
theorem foldl_removeStep (p : Ptr) (items : List CartItem) (h : Heap) (found : Bool)
    (acc : InventoryList CartItem) :
    items.foldl (ShoppingCart.removeStep p) (h, found, acc)
      = ((items.filter (sameProduct h p)).foldl (fun g e => g.updateStock p e.quantity) h,
         found || items.any (sameProduct h p),
         ⟨acc.items ++ items.filter (fun e => !sameProduct h p e)⟩) := by
  induction items generalizing h found acc with
  | nil => simp
  | cons e es ih =>
    rw [List.foldl_cons]
    by_cases hm : (h e.product).getId = (h p).getId
    · have hs : sameProduct h p e = true := by simp [sameProduct, hm]
      simp only [ShoppingCart.removeStep, CartItem.getProduct, hm, if_true, CartItem.getQuantity]
      rw [ih, sameProduct_updateStock]
      simp [hs]
    · have hs : sameProduct h p e = false := by simp [sameProduct, hm]
      simp only [ShoppingCart.removeStep, CartItem.getProduct, hm, if_false]
      rw [ih]
      simp [hs, InventoryList.addItem]

theorem foldl_updateStock_getId (f : CartItem → Ptr) (items : List CartItem) (h : Heap)
    (a : Ptr) :
    (items.foldl (fun g e => g.updateStock (f e) e.quantity) h a).getId = (h a).getId := by
  induction items generalizing h with
  | nil => rfl
  | cons e es ih => rw [List.foldl_cons, ih, Heap.updateStock_getId]

theorem foldl_updateStock_getPrice (f : CartItem → Ptr) (items : List CartItem) (h : Heap)
    (a : Ptr) :
    (items.foldl (fun g e => g.updateStock (f e) e.quantity) h a).getPrice = (h a).getPrice := by
  induction items generalizing h with
  | nil => rfl
  | cons e es ih => rw [List.foldl_cons, ih, Heap.updateStock_getPrice]

theorem foldl_updateStock_other (f : CartItem → Ptr) (items : List CartItem) (h : Heap)
    (a : Ptr) (ha : ∀ e ∈ items, f e ≠ a) :
    items.foldl (fun g e => g.updateStock (f e) e.quantity) h a = h a := by
  induction items generalizing h with
  | nil => rfl
  | cons e es ih =>
    rw [List.foldl_cons, ih _ (fun x hx => ha x (List.mem_cons_of_mem _ hx))]
    exact Heap.updateStock_other h (f e) e.quantity a (fun hc => ha e (List.mem_cons_self _ _) hc.symm)

theorem any_sameProduct_iff (h : Heap) (p : Ptr) (items : List CartItem) :
    items.any (sameProduct h p) = true ↔ (h p).getId ∈ entryIds h items := by
  simp only [List.any_eq_true, sameProduct, decide_eq_true_eq, entryIds, List.mem_map]

/-- What an accepted `operator+=` computes. -/
theorem operatorAddAssign_accept (h : Heap) (c : ShoppingCart) (p : Ptr) (q : Int)
    (hq : 0 < q) (hs : q ≤ (h p).getStock) :
    ShoppingCart.operatorAddAssign (h, c) (some p) q
      = (h.updateStock p (-q),
         ShoppingCart.calculateTotal (h.updateStock p (-q))
           { c with cartItems :=
              ⟨c.cartItems.items.map (fun e =>
                  if sameProduct h p e then e.setQuantity (int32 (e.getQuantity + q)) else e)
                ++ if c.cartItems.items.any (sameProduct h p) then [] else [CartItem.mk p q]⟩ }) := by
  have h1 : ¬ q ≤ 0 := not_le.mpr hq
  have h2 : ¬ (h p).getStock < q := not_lt.mpr hs
  simp only [ShoppingCart.operatorAddAssign, h1, h2, if_false, InventoryList.getAllItems,
    foldl_addStep, InventoryList.new, Bool.false_or, List.nil_append]
  cases hany : c.cartItems.items.any (sameProduct h p) <;> simp [InventoryList.addItem]

/-- What `operator-=` computes for a non-null product. -/
theorem operatorSubAssign_some (h : Heap) (c : ShoppingCart) (p : Ptr) :
    ShoppingCart.operatorSubAssign (h, c) (some p)
      = ((c.cartItems.items.filter (sameProduct h p)).foldl
            (fun g e => g.updateStock p e.quantity) h,
         ShoppingCart.calculateTotal
           ((c.cartItems.items.filter (sameProduct h p)).foldl
              (fun g e => g.updateStock p e.quantity) h)
           { c with cartItems := ⟨c.cartItems.items.filter (fun e => !sameProduct h p e)⟩ }) := by
  simp [ShoppingCart.operatorSubAssign, InventoryList.getAllItems, foldl_removeStep,
    InventoryList.new]

theorem operatorAddAssign_guard (h : Heap) (c : ShoppingCart) (p : Ptr) (q : Int)
    (hrej : q ≤ 0 ∨ (h p).getStock < q) :
    ShoppingCart.operatorAddAssign (h, c) (some p) q = (h, c) := by
  simp only [ShoppingCart.operatorAddAssign]
  rcases hrej with h0 | h0
  · rw [if_pos h0]
  · rw [if_pos h0]
    split <;> rfl

/-! ## Scenario evaluation -/

theorem storeA_zero : storeA 0 = ProductObj.product (Product.mk 1 "A" 10 5) := rfl

theorem afterAdd3_eq :
    afterAdd3 = (storeA.updateStock 0 (-3), ⟨⟨[CartItem.mk 0 3]⟩, 30⟩) := by
  have hs : (3 : Int) ≤ (storeA 0).getStock := by decide
  rw [afterAdd3, operatorAddAssign_accept storeA ShoppingCart.new 0 3 (by decide) hs]
  simp only [ShoppingCart.calculateTotal, ShoppingCart.new, InventoryList.new,
    InventoryList.getAllItems, CartItem.getTotalPrice, List.map_nil, List.any_nil,
    List.nil_append, Bool.false_eq_true, if_false, List.foldl_cons, List.foldl_nil,
    Heap.updateStock_getPrice]
  simp only [storeA_zero, ProductObj.getPrice, ProductObj.base]
  norm_num

theorem afterAdd3_stock : (afterAdd3.1 0).getStock = 2 := by
  rw [afterAdd3_eq]
  show ((storeA.updateStock 0 (-3)) 0).getStock = 2
  rw [Heap.updateStock_same, ProductObj.getStock_updateStock]
  decide

/-! ## C1, C2: `operator+=` -/

/-- C2: `operator+=` with a null product, a quantity `<= 0`, or a product whose stock is
below the quantity returns the state it was given: the entries, the cached total and the
whole store (hence every product's stock) are unchanged. -/
theorem addProduct_reject (h : Heap) (c : ShoppingCart) (product : Option Ptr) (q : Int)
    (hrej : product = none ∨ q ≤ 0 ∨ ∃ p, product = some p ∧ (h p).getStock < q) :
    ShoppingCart.operatorAddAssign (h, c) product q = (h, c) := by
  rcases hrej with h0 | h0 | ⟨p, hp, hlt⟩
  · subst h0; rfl
  · cases product with
    | none => rfl
    | some p => simp [ShoppingCart.operatorAddAssign, h0]
  · subst hp
    simp only [ShoppingCart.operatorAddAssign]
    split
    · rfl
    · rfl

/-- Witness of C2: item A (price 10, stock 5); adding 3 gives total 30 and stock 2, and
adding 10 afterwards is rejected and leaves the state as it was. -/
theorem addProduct_reject_witness :
    afterAdd3.2.totalAmount = 30 ∧ (afterAdd3.1 0).getStock = 2 ∧
    ShoppingCart.operatorAddAssign (afterAdd3.1, afterAdd3.2) (some 0) 10
      = (afterAdd3.1, afterAdd3.2) :=
  ⟨by rw [afterAdd3_eq], afterAdd3_stock,
   addProduct_reject afterAdd3.1 afterAdd3.2 (some 0) 10
    (Or.inr (Or.inr ⟨0, rfl, by rw [afterAdd3_stock]; decide⟩))⟩

/-! ## C3, C4: invariants of the reachable carts -/

theorem foldl_apply_invariant (P : Heap × ShoppingCart → Prop)
    (hstep : ∀ s op, P s → P (CartOp.apply s op)) (ops : List CartOp)
    (s : Heap × ShoppingCart) (hs : P s) : P (ops.foldl CartOp.apply s) := by
  induction ops generalizing s with
  | nil => exact hs
  | cons op ops ih => exact ih _ (hstep s op hs)

theorem operatorAddAssign_cases (h : Heap) (c : ShoppingCart) (product : Option Ptr) (q : Int) :
    ShoppingCart.operatorAddAssign (h, c) product q = (h, c) ∨
    ∃ p, product = some p ∧ 0 < q ∧ q ≤ (h p).getStock := by
  cases product with
  | none => exact Or.inl rfl
  | some p =>
    by_cases h1 : q ≤ 0
    · exact Or.inl (operatorAddAssign_guard h c p q (Or.inl h1))
    · by_cases h2 : (h p).getStock < q
      · exact Or.inl (operatorAddAssign_guard h c p q (Or.inr h2))
      · exact Or.inr ⟨p, rfl, not_le.mp h1, not_lt.mp h2⟩

theorem total_step (s : Heap × ShoppingCart) (op : CartOp)
    (hs : s.2.totalAmount = lineTotal s.1 s.2.cartItems.items) :
    (CartOp.apply s op).2.totalAmount
      = lineTotal (CartOp.apply s op).1 (CartOp.apply s op).2.cartItems.items := by
  obtain ⟨h, c⟩ := s
  cases op with
  | add product q =>
    rcases operatorAddAssign_cases h c product q with hrej | ⟨p, hp, hq, hst⟩
    · simp only [CartOp.apply, hrej]; exact hs
    · subst hp
      simp only [CartOp.apply, operatorAddAssign_accept h c p q hq hst,
        calculateTotal_totalAmount, calculateTotal_cartItems]
  | remove product =>
    cases product with
    | none => exact hs
    | some p =>
      simp only [CartOp.apply, operatorSubAssign_some, calculateTotal_totalAmount,
        calculateTotal_cartItems]
  | clear => simp [CartOp.apply, ShoppingCart.clearCart, InventoryList.new, lineTotal]

/-- C3: in every state reached from a new cart by `operator+=`, `operator-=` and
`clearCart` calls (accepted or rejected, any arguments), the cached `totalAmount` equals
the sum over the entries of `product.price * quantity`. -/
theorem cart_total_invariant (h : Heap) (ops : List CartOp) :
    (runCartOps h ops).2.totalAmount
      = lineTotal (runCartOps h ops).1 (runCartOps h ops).2.cartItems.items := by
  apply foldl_apply_invariant
    (fun s => s.2.totalAmount = lineTotal s.1 s.2.cartItems.items) total_step ops
  simp [ShoppingCart.new, InventoryList.new, lineTotal]

theorem entryIds_map_setQuantity (h : Heap) (p : Ptr) (q : Int) (items : List CartItem) :
    entryIds h (items.map (fun e =>
        if sameProduct h p e then e.setQuantity (int32 (e.getQuantity + q)) else e))
      = entryIds h items := by
  simp only [entryIds, List.map_map]
  apply List.map_congr_left
  intro e _
  simp only [Function.comp, CartItem.setQuantity]
  split <;> [split; skip] <;> rfl

theorem entryIds_foldl_updateStock (f : CartItem → Ptr) (l : List CartItem) (h : Heap)
    (items : List CartItem) :
    entryIds (l.foldl (fun g e => g.updateStock (f e) e.quantity) h) items
      = entryIds h items := by
  simp only [entryIds, foldl_updateStock_getId]

theorem unique_step (s : Heap × ShoppingCart) (op : CartOp)
    (hs : (entryIds s.1 s.2.cartItems.items).Nodup) :
    (entryIds (CartOp.apply s op).1 (CartOp.apply s op).2.cartItems.items).Nodup := by
  obtain ⟨h, c⟩ := s
  cases op with
  | add product q =>
    rcases operatorAddAssign_cases h c product q with hrej | ⟨p, hp, hq, hst⟩
    · simp only [CartOp.apply, hrej]; exact hs
    · subst hp
      simp only [CartOp.apply, operatorAddAssign_accept h c p q hq hst,
        calculateTotal_cartItems, entryIds_updateStock]
      cases hany : c.cartItems.items.any (sameProduct h p)
      · have hnot : (h p).getId ∉ entryIds h c.cartItems.items := by
          rw [← any_sameProduct_iff, hany]; simp
        have hsplit : entryIds h (c.cartItems.items.map (fun e =>
              if sameProduct h p e then e.setQuantity (int32 (e.getQuantity + q)) else e)
              ++ [CartItem.mk p q])
            = entryIds h c.cartItems.items ++ [(h p).getId] := by
          rw [← entryIds_map_setQuantity h p q c.cartItems.items]
          simp [entryIds]
        simp only [Bool.false_eq_true, if_false, hsplit]
        exact List.Nodup.append hs (List.nodup_singleton _)
          (by
            simp only [List.Disjoint, List.mem_singleton]
            intro a ha heq
            exact hnot (heq ▸ ha))
      · simp only [if_true, List.append_nil, entryIds_map_setQuantity]
        exact hs
  | remove product =>
    cases product with
    | none => exact hs
    | some p =>
      simp only [CartOp.apply, operatorSubAssign_some, calculateTotal_cartItems,
        entryIds_foldl_updateStock (fun _ => p)]
      exact hs.sublist (List.Sublist.map _ (List.filter_sublist _))
  | clear => simp [CartOp.apply, ShoppingCart.clearCart, InventoryList.new, entryIds]

/-- C4: in every state reached from a new cart by `operator+=`, `operator-=` and
`clearCart` calls, no two entries of the cart refer to products with the same id. -/
theorem cart_unique_entry_invariant (h : Heap) (ops : List CartOp) :
    (entryIds (runCartOps h ops).1 (runCartOps h ops).2.cartItems.items).Nodup := by
  apply foldl_apply_invariant
    (fun s => (entryIds s.1 s.2.cartItems.items).Nodup) unique_step ops
  simp [ShoppingCart.new, InventoryList.new, entryIds]

/-! ## C5, C6: `operator-=` -/

theorem filter_sameProduct_of_nodup (h : Heap) (p : Ptr) (items : List CartItem) (e : CartItem)
    (hn : (entryIds h items).Nodup) (he : e ∈ items)
    (hid : (h e.product).getId = (h p).getId) :
    items.filter (sameProduct h p) = [e] := by
  induction items with
  | nil => cases he
  | cons x xs ih =>
    simp only [entryIds, List.map_cons, List.nodup_cons, List.mem_map, not_exists, not_and] at hn
    obtain ⟨hx, hxs⟩ := hn
    rcases List.mem_cons.mp he with hex | hexs
    · subst hex
      have hnone : xs.filter (sameProduct h p) = [] := by
        rw [List.filter_eq_nil_iff]
        intro y hy hsame
        simp only [sameProduct, decide_eq_true_eq] at hsame
        exact hx y hy (hsame.trans hid.symm)
      simp [List.filter_cons, sameProduct, hid, hnone]
    · have hne : ¬ (h x.product).getId = (h p).getId := by
        intro hc
        exact hx e hexs (hid.trans hc.symm)
      have := ih hxs hexs
      simp [List.filter_cons, sameProduct, hne]
      simpa [sameProduct] using this

theorem filter_sameProduct_of_absent (h : Heap) (p : Ptr) (items : List CartItem)
    (hno : ∀ e ∈ items, (h e.product).getId ≠ (h p).getId) :
    items.filter (sameProduct h p) = [] ∧
    items.filter (fun e => !sameProduct h p e) = items := by
  constructor
  · rw [List.filter_eq_nil_iff]
    intro y hy hsame
    simp only [sameProduct, decide_eq_true_eq] at hsame
    exact hno y hy hsame
  · rw [List.filter_eq_self]
    intro y hy
    simp [sameProduct, hno y hy]

/-- C5 as the code has it: on a cart with pairwise distinct entry ids that holds an entry
`e` with the id of `p`, of positive quantity `k = e.quantity`, with `p.stock >= 0` and
`p.stock + k` not above `INT_MAX`, `operator-=` raises `p.stock` by exactly `k`, leaves no
entry with `p`'s id, keeps the other entries (products and quantities) in their order, and
sets the total to the sum of the remaining line totals. -/
theorem removeProduct_success (h : Heap) (c : ShoppingCart) (p : Ptr) (e : CartItem)
    (huniq : (entryIds h c.cartItems.items).Nodup)
    (he : e ∈ c.cartItems.items) (hid : (h e.product).getId = (h p).getId)
    (hk : 0 < e.quantity) (hstock : 0 ≤ (h p).getStock)
    (hfit : (h p).getStock + e.quantity ≤ INT_MAX) :
    ((ShoppingCart.operatorSubAssign (h, c) (some p)).1 p).getStock
        = (h p).getStock + e.quantity ∧
    (∀ x ∈ (ShoppingCart.operatorSubAssign (h, c) (some p)).2.cartItems.items,
        ((ShoppingCart.operatorSubAssign (h, c) (some p)).1 x.product).getId
          ≠ ((ShoppingCart.operatorSubAssign (h, c) (some p)).1 p).getId) ∧
    (ShoppingCart.operatorSubAssign (h, c) (some p)).2.cartItems.items
        = c.cartItems.items.filter (fun x => decide ((h x.product).getId ≠ (h p).getId)) ∧
    (ShoppingCart.operatorSubAssign (h, c) (some p)).2.totalAmount
        = lineTotal (ShoppingCart.operatorSubAssign (h, c) (some p)).1
            (ShoppingCart.operatorSubAssign (h, c) (some p)).2.cartItems.items := by
  rw [operatorSubAssign_some, filter_sameProduct_of_nodup h p _ e huniq he hid]
  simp only [List.foldl_cons, List.foldl_nil, calculateTotal_cartItems,
    calculateTotal_totalAmount, Heap.updateStock_getId]
  refine ⟨?_, ?_, ?_, trivial⟩
  · simp only [INT_MAX] at hfit
    rw [Heap.updateStock_same, ProductObj.getStock_updateStock_fit _ _ (by omega) hfit]
  · intro x hx
    simp only [List.mem_filter, sameProduct, Bool.not_eq_true', decide_eq_false_iff_not] at hx
    exact hx.2
  · apply List.filter_congr
    intro x _
    simp [sameProduct]

/-- Witness of the amended C5: after adding 3 of A (price 10, stock 5), removing A gives
A.stock 5, total 0 and an empty cart. -/
theorem removeProduct_success_witness :
    ((ShoppingCart.operatorSubAssign (afterAdd3.1, afterAdd3.2) (some 0)).1 0).getStock = 5 ∧
    (ShoppingCart.operatorSubAssign (afterAdd3.1, afterAdd3.2) (some 0)).2.totalAmount = 0 ∧
    (ShoppingCart.operatorSubAssign (afterAdd3.1, afterAdd3.2) (some 0)).2.cartItems.items
      = [] := by
  have hitems : afterAdd3.2.cartItems.items = [CartItem.mk 0 3] := by rw [afterAdd3_eq]
  have hw := removeProduct_success afterAdd3.1 afterAdd3.2 0 (CartItem.mk 0 3)
    (by rw [hitems]; simp [entryIds]) (by rw [hitems]; simp) rfl (by decide)
    (by rw [afterAdd3_stock]; decide) (by rw [afterAdd3_stock]; decide)
  obtain ⟨h1, _, h3, h4⟩ := hw
  have hempty : (ShoppingCart.operatorSubAssign (afterAdd3.1, afterAdd3.2) (some 0)).2.cartItems.items
      = [] := by
    rw [h3, hitems]; simp
  refine ⟨?_, ?_, hempty⟩
  · rw [h1, afterAdd3_stock]; rfl
  · rw [h4, hempty]; rfl

/-- C5 fails as stated: the cart holds the entry (Q, 1) and P is a second object with Q's
id and stock `INT_MAX` (`>= 0`). `cart -= P` finds the entry and removes it, but the `int`
sum `INT_MAX + 1` in `updateStock` is negative, the credit is rejected, and P.stock is
still `INT_MAX` instead of `INT_MAX + 1`. -/
theorem removeProduct_success_counterexample :
    afterAddQ.2.cartItems.items = [CartItem.mk 1 1] ∧
    (afterAddQ.1 1).getId = (afterAddQ.1 0).getId ∧
    (afterAddQ.1 0).getStock = 2147483647 ∧
    ((ShoppingCart.operatorSubAssign afterAddQ (some 0)).1 0).getStock = 2147483647 ∧
    ((ShoppingCart.operatorSubAssign afterAddQ (some 0)).1 0).getStock
      ≠ (afterAddQ.1 0).getStock + 1 ∧
    (ShoppingCart.operatorSubAssign afterAddQ (some 0)).2.cartItems.items = [] := by
  refine ⟨?_, ?_, ?_, ?_, ?_, ?_⟩ <;> decide

theorem afterSetPrice_items : afterSetPrice.2.cartItems.items = [CartItem.mk 0 3] := by
  rw [afterSetPrice, afterAdd3_eq]

theorem afterSetPrice_totalAmount : afterSetPrice.2.totalAmount = 30 := by
  rw [afterSetPrice, afterAdd3_eq]

theorem afterSetPrice_absent :
    ∀ e ∈ afterSetPrice.2.cartItems.items,
      (afterSetPrice.1 e.product).getId ≠ (afterSetPrice.1 1).getId := by
  intro e he
  rw [afterSetPrice_items, List.mem_singleton] at he
  subst he
  rw [afterSetPrice, afterAdd3_eq]
  decide

theorem afterSetPrice_lineTotal :
    lineTotal afterSetPrice.1 afterSetPrice.2.cartItems.items = 60 := by
  rw [afterSetPrice_items]
  have hp : (afterSetPrice.1 0).getPrice = 20 := by
    rw [afterSetPrice, afterAdd3_eq]
    simp only [Heap.setPrice, Function.update_same, Heap.updateStock, storeA_zero]
    simp [ProductObj.updateStock, Product.updateStock, ProductObj.setPrice, Product.setPrice,
      ProductObj.getPrice, ProductObj.base]
  simp only [lineTotal, List.map_cons, List.map_nil, List.sum_cons, List.sum_nil, hp]
  norm_num

/-- What a rejected `operator-=` does (C6 as the code has it): with a null product the
state is returned as it was; with a product that has no matching entry the store (every
product's stock) and the entries are unchanged and the cached total is recomputed, so it
becomes the sum of the line totals at the current prices. The whole state is therefore
unchanged whenever the cached total was equal to that sum before the call. -/
theorem removeProduct_reject (h : Heap) (c : ShoppingCart) (product : Option Ptr)
    (hrej : product = none ∨
      ∃ p, product = some p ∧ ∀ e ∈ c.cartItems.items, (h e.product).getId ≠ (h p).getId) :
    (ShoppingCart.operatorSubAssign (h, c) product).1 = h ∧
    (ShoppingCart.operatorSubAssign (h, c) product).2.cartItems = c.cartItems ∧
    (product = none →
      (ShoppingCart.operatorSubAssign (h, c) product).2.totalAmount = c.totalAmount) ∧
    (product ≠ none →
      (ShoppingCart.operatorSubAssign (h, c) product).2.totalAmount
        = lineTotal h c.cartItems.items) ∧
    (c.totalAmount = lineTotal h c.cartItems.items →
      ShoppingCart.operatorSubAssign (h, c) product = (h, c)) := by
  rcases hrej with h0 | ⟨p, hp, hno⟩
  · subst h0
    exact ⟨rfl, rfl, fun _ => rfl, fun hc => absurd rfl hc, fun _ => rfl⟩
  · subst hp
    obtain ⟨hf1, hf2⟩ := filter_sameProduct_of_absent h p c.cartItems.items hno
    rw [operatorSubAssign_some, hf1, hf2]
    refine ⟨rfl, rfl, fun hc => Option.noConfusion hc, fun _ => ?_, ?_⟩
    · rw [calculateTotal_totalAmount]; rfl
    · intro htot
      simp only [List.foldl_nil, ShoppingCart.calculateTotal, InventoryList.getAllItems,
        foldl_total, zero_add, ← htot]

/-- Witness of the amended C6: removing B (no entry) from the cart holding 3 of A after
`A.setPrice(20)`. -/
theorem removeProduct_reject_witness :
    (ShoppingCart.operatorSubAssign (afterSetPrice.1, afterSetPrice.2) (some 1)).1
        = afterSetPrice.1 ∧
    (ShoppingCart.operatorSubAssign (afterSetPrice.1, afterSetPrice.2) (some 1)).2.cartItems
        = afterSetPrice.2.cartItems ∧
    (ShoppingCart.operatorSubAssign (afterSetPrice.1, afterSetPrice.2) (some 1)).2.totalAmount
        = lineTotal afterSetPrice.1 afterSetPrice.2.cartItems.items := by
  obtain ⟨h1, h2, _, h4, _⟩ := removeProduct_reject afterSetPrice.1 afterSetPrice.2 (some 1)
    (Or.inr ⟨1, rfl, afterSetPrice_absent⟩)
  exact ⟨h1, h2, h4 (by simp)⟩

/-- C6 fails as stated: the cart holds 3 of A with cached total 30, then `A.setPrice(20)`;
`operator-=` with product B, which has no entry in the cart, changes the cached total from
30 to 60. -/
theorem removeProduct_reject_counterexample :
    (∀ e ∈ afterSetPrice.2.cartItems.items,
      (afterSetPrice.1 e.product).getId ≠ (afterSetPrice.1 1).getId) ∧
    afterSetPrice.2.totalAmount = 30 ∧
    (ShoppingCart.operatorSubAssign afterSetPrice (some 1)).2.totalAmount = 60 ∧
    ShoppingCart.operatorSubAssign afterSetPrice (some 1) ≠ afterSetPrice := by
  have h60 : (ShoppingCart.operatorSubAssign afterSetPrice (some 1)).2.totalAmount = 60 := by
    obtain ⟨hf1, hf2⟩ := filter_sameProduct_of_absent afterSetPrice.1 1
      afterSetPrice.2.cartItems.items afterSetPrice_absent
    have hs : afterSetPrice = (afterSetPrice.1, afterSetPrice.2) := rfl
    rw [hs, operatorSubAssign_some, hf1, hf2]
    simp only [List.foldl_nil, calculateTotal_totalAmount]
    exact afterSetPrice_lineTotal
  refine ⟨afterSetPrice_absent, afterSetPrice_totalAmount, h60, ?_⟩
  intro hc
  have h30 := afterSetPrice_totalAmount
  rw [← hc, h60] at h30
  norm_num at h30

/-! ## C7: stock non-negativity -/

theorem ProductObj.getStock_setStock (o : ProductObj) (x : Int) :
    (o.setStock x).getStock = if x ≥ 0 then int32 x else o.getStock := by
  cases o <;>
    simp only [ProductObj.setStock, Product.setStock, ProductObj.getStock, ProductObj.base] <;>
    split <;> rfl

/-- The setters keep a non-negative stock non-negative: what `setStock` and `updateStock`
guarantee once the stock is non-negative (the `setStock` arguments being `int` values). -/
theorem runStockOps_nonneg (o : ProductObj) (ops : List StockOp) (h0 : 0 ≤ o.getStock)
    (hargs : ∀ x, StockOp.setStock x ∈ ops → x ≤ 2147483647) :
    0 ≤ (runStockOps o ops).getStock := by
  unfold runStockOps
  induction ops generalizing o with
  | nil => exact h0
  | cons op ops ih =>
    rw [List.foldl_cons]
    apply ih _ _ (fun x hx => hargs x (List.mem_cons_of_mem _ hx))
    cases op with
    | updateStock d =>
      simp only [StockOp.apply, ProductObj.getStock_updateStock]
      split <;> omega
    | setStock x =>
      simp only [StockOp.apply, ProductObj.getStock_setStock]
      have hx := hargs x (List.mem_cons_self _ _)
      split
      · rw [int32_of_range x (by omega) hx]; omega
      · exact h0

/-- C7 at the failing input: the constructor stores a negative stock unchecked
(`Product(1, "A", 10, -5)`), and the stock is still `-5` after `updateStock(2)` and
`setStock(-1)`, both of which are rejected. -/
theorem stock_negative_after_constructor :
    (ProductObj.product (Product.mk 1 "A" 10 (-5))).getStock = -5 ∧
    (runStockOps (ProductObj.product (Product.mk 1 "A" 10 (-5)))
      [StockOp.updateStock 2, StockOp.setStock (-1)]).getStock = -5 := by
  constructor <;> decide

/-! ## C8, C9, C10: `checkout` -/

/-- C8: `checkout` on a non-empty cart appends exactly one order to the history, leaving
the earlier orders as they were; the new order carries the cart's total and entries as
they were just before the call and the status "Confirmed"; afterwards the cart has no
entries and total 0. -/
theorem checkout_nonempty (s : System) (hne : s.manager.cart.isEmpty = false) :
    (ECommerceManager.checkout s).manager.orderHistory
      = s.manager.orderHistory ++
          [{ orderId := s.nextOrderId
             orderItems := s.manager.cart.cartItems.items
             totalAmount := s.manager.cart.totalAmount
             status := "Confirmed"
             orderDate := "2024-01-15" }] ∧
    (ECommerceManager.checkout s).manager.cart.cartItems.items = [] ∧
    (ECommerceManager.checkout s).manager.cart.totalAmount = 0 := by
  simp only [ECommerceManager.checkout, hne, Bool.false_eq_true, if_false]
  exact ⟨rfl, rfl, rfl⟩

/-- Witness of C8: checkout of the scenario cart holding 3 of A. -/
theorem checkout_nonempty_witness :
    shopAfterAdd.manager.cart.isEmpty = false ∧
    (ECommerceManager.checkout shopAfterAdd).manager.orderHistory
      = shopAfterAdd.manager.orderHistory ++
          [{ orderId := shopAfterAdd.nextOrderId
             orderItems := shopAfterAdd.manager.cart.cartItems.items
             totalAmount := shopAfterAdd.manager.cart.totalAmount
             status := "Confirmed"
             orderDate := "2024-01-15" }] ∧
    (ECommerceManager.checkout shopAfterAdd).manager.cart.cartItems.items = [] ∧
    (ECommerceManager.checkout shopAfterAdd).manager.cart.totalAmount = 0 :=
  ⟨by decide, checkout_nonempty shopAfterAdd (by decide)⟩

/-- C9 at the failing input: with A (stock 5) in the inventory and 3 of A in the cart
through `addToCart(1, 3)`, A's stock is 2 before `checkout` and 5 after it: the
`clearCart` inside `checkout` gives the 3 sold units back to the stock. -/
theorem checkout_restores_stock :
    shopAfterAdd.manager.cart.isEmpty = false ∧
    (shopAfterAdd.heap 0).getStock = 2 ∧
    ((ECommerceManager.checkout shopAfterAdd).heap 0).getStock = 5 := by
  refine ⟨?_, ?_, ?_⟩ <;> decide

/-- C10: `checkout` on an empty cart returns the program state it was given: order
history, cart, every product's stock and the next-order-id counter are unchanged. -/
theorem checkout_empty (s : System) (hempty : s.manager.cart.isEmpty = true) :
    ECommerceManager.checkout s = s := by
  simp [ECommerceManager.checkout, hempty]

/-- Witness of C10: checkout of the scenario manager before anything is added. -/
theorem checkout_empty_witness :
    shopA.manager.cart.isEmpty = true ∧ ECommerceManager.checkout shopA = shopA :=
  ⟨by decide, checkout_empty shopA (by decide)⟩

/-! ## C11: order ids -/

theorem foldl_manager_invariant (P : System → Prop)
    (hstep : ∀ s op, P s → P (ManagerOp.apply s op)) (ops : List ManagerOp)
    (s : System) (hs : P s) : P (runManagerOps s ops) := by
  unfold runManagerOps
  induction ops generalizing s with
  | nil => exact hs
  | cons op ops ih => exact ih _ (hstep s op hs)

theorem addToCart_orders (s : System) (productId quantity : Int) :
    (ECommerceManager.addToCart s productId quantity).manager.orderHistory
        = s.manager.orderHistory ∧
    (ECommerceManager.addToCart s productId quantity).nextOrderId = s.nextOrderId := by
  unfold ECommerceManager.addToCart
  split <;> exact ⟨rfl, rfl⟩

theorem removeFromCart_orders (s : System) (productId : Int) :
    (ECommerceManager.removeFromCart s productId).manager.orderHistory
        = s.manager.orderHistory ∧
    (ECommerceManager.removeFromCart s productId).nextOrderId = s.nextOrderId := by
  unfold ECommerceManager.removeFromCart
  split <;> exact ⟨rfl, rfl⟩

theorem addProductToInventory_orders (s : System) (product : Option Ptr) :
    (ECommerceManager.addProductToInventory s product).manager.orderHistory
        = s.manager.orderHistory ∧
    (ECommerceManager.addProductToInventory s product).nextOrderId = s.nextOrderId := by
  cases product <;> exact ⟨rfl, rfl⟩

theorem checkout_orders (s : System) :
    (s.manager.cart.isEmpty = true ∧ ECommerceManager.checkout s = s) ∨
    (∃ o : Order, o.orderId = s.nextOrderId ∧
      (ECommerceManager.checkout s).manager.orderHistory = s.manager.orderHistory ++ [o] ∧
      (ECommerceManager.checkout s).nextOrderId = s.nextOrderId + 1) := by
  cases hc : s.manager.cart.isEmpty
  · right
    simp only [ECommerceManager.checkout, hc, Bool.false_eq_true, if_false]
    exact ⟨_, rfl, rfl, rfl⟩
  · left
    simp [ECommerceManager.checkout, hc]

theorem ids_step (s : System) (op : ManagerOp)
    (hs : orderIds s = (List.range s.manager.orderHistory.length).map (fun k : Nat => (k : Int) + 1) ∧
      s.nextOrderId = (s.manager.orderHistory.length : Int) + 1) :
    orderIds (ManagerOp.apply s op)
        = (List.range (ManagerOp.apply s op).manager.orderHistory.length).map
            (fun k : Nat => (k : Int) + 1) ∧
      (ManagerOp.apply s op).nextOrderId
        = ((ManagerOp.apply s op).manager.orderHistory.length : Int) + 1 := by
  have keep : ∀ t : System, t.manager.orderHistory = s.manager.orderHistory →
      t.nextOrderId = s.nextOrderId →
      orderIds t = (List.range t.manager.orderHistory.length).map (fun k : Nat => (k : Int) + 1) ∧
        t.nextOrderId = (t.manager.orderHistory.length : Int) + 1 := by
    intro t h1 h2
    have h3 : orderIds t = orderIds s := by simp only [orderIds, h1]
    rw [h3, h1, h2]
    exact hs
  cases op with
  | addProductToInventory product =>
    exact keep _ (addProductToInventory_orders s product).1 (addProductToInventory_orders s product).2
  | addToCart productId quantity =>
    exact keep _ (addToCart_orders s productId quantity).1 (addToCart_orders s productId quantity).2
  | removeFromCart productId =>
    exact keep _ (removeFromCart_orders s productId).1 (removeFromCart_orders s productId).2
  | applyCartDiscount rate => exact hs
  | checkout =>
    rcases checkout_orders s with ⟨_, hsame⟩ | ⟨o, hid, hhist, hctr⟩
    · simp only [ManagerOp.apply, hsame]; exact hs
    · simp only [ManagerOp.apply, orderIds, hhist, hctr, List.map_append, List.map_cons,
        List.map_nil, List.length_append, List.length_singleton, List.range_succ, hid]
      refine ⟨?_, ?_⟩
      · rw [← hs.2]
        congr 1
        exact hs.1
      · push_cast; rw [hs.2]

/-- C11: from any program state with the counter at its initial value 1 and no order yet,
after every finite sequence of manager calls (addProductToInventory, addToCart,
removeFromCart, applyCartDiscount, checkout) the ids of the order history are
`1, 2, ..., n` in history order (the k-th order created has id k), hence strictly
increasing and pairwise distinct. -/
theorem order_ids_sequential (s : System) (ops : List ManagerOp)
    (hhist : s.manager.orderHistory = []) (hctr : s.nextOrderId = 1) :
    orderIds (runManagerOps s ops)
        = (List.range (runManagerOps s ops).manager.orderHistory.length).map
            (fun k : Nat => (k : Int) + 1) ∧
    (orderIds (runManagerOps s ops)).Pairwise (fun a b => a < b) ∧
    (orderIds (runManagerOps s ops)).Nodup := by
  have hinv := foldl_manager_invariant
    (fun t => orderIds t = (List.range t.manager.orderHistory.length).map (fun k : Nat => (k : Int) + 1) ∧
      t.nextOrderId = (t.manager.orderHistory.length : Int) + 1) ids_step ops s
    (by simp [orderIds, hhist, hctr])
  have hlt : (orderIds (runManagerOps s ops)).Pairwise (fun a b => a < b) := by
    rw [hinv.1, List.pairwise_map]
    refine List.Pairwise.imp ?_ (List.pairwise_lt_range _)
    intro a b hab
    have : (a : Int) < (b : Int) := by exact_mod_cast hab
    omega
  exact ⟨hinv.1, hlt, hlt.imp (fun hab => ne_of_lt hab)⟩

/-- Witness of C11: two checkouts of the scenario manager give the ids 1 and 2. -/
theorem order_ids_sequential_witness :
    orderIds (runManagerOps shopA
      [ManagerOp.addToCart 1 3, ManagerOp.checkout, ManagerOp.applyCartDiscount 0,
        ManagerOp.addToCart 1 1, ManagerOp.removeFromCart 2, ManagerOp.checkout]) = [1, 2] ∧
    (orderIds (runManagerOps shopA
      [ManagerOp.addToCart 1 3, ManagerOp.checkout, ManagerOp.applyCartDiscount 0,
        ManagerOp.addToCart 1 1, ManagerOp.removeFromCart 2, ManagerOp.checkout])).Pairwise
      (fun a b => a < b) ∧
    (orderIds (runManagerOps shopA
      [ManagerOp.addToCart 1 3, ManagerOp.checkout, ManagerOp.applyCartDiscount 0,
        ManagerOp.addToCart 1 1, ManagerOp.removeFromCart 2, ManagerOp.checkout])).Nodup :=
  ⟨by decide,
   (order_ids_sequential shopA _ rfl rfl).2⟩

/-! ## C12: `Order::Order` on an empty cart -/

theorem isEmpty_items (c : ShoppingCart) (hempty : c.isEmpty = true) :
    c.cartItems.items = [] := by
  simpa [ShoppingCart.isEmpty, InventoryList.empty, List.isEmpty_iff] using hempty

/-- C12 as the code has it: `Order::Order(cart)` has no emptiness check. For an empty cart
it still returns an order (no entries, the cart's total, status "Confirmed") whose id is the
counter value, and it increments the counter; the cart is passed by const reference and is
not part of what the constructor changes. The empty-cart rejection is the caller's:
`ECommerceManager::checkout` returns before constructing an order, with the history and
the counter as they were. -/
theorem order_new_empty (nextOrderId : Int) (cart : ShoppingCart)
    (hempty : cart.isEmpty = true) :
    Order.new nextOrderId cart
      = ({ orderId := nextOrderId
           orderItems := []
           totalAmount := cart.totalAmount
           status := "Confirmed"
           orderDate := "2024-01-15" },
         nextOrderId + 1) ∧
    (∀ s : System, s.manager.cart = cart →
      (ECommerceManager.checkout s).manager.orderHistory = s.manager.orderHistory ∧
      (ECommerceManager.checkout s).nextOrderId = s.nextOrderId ∧
      (ECommerceManager.checkout s).manager.cart = cart) := by
  constructor
  · simp only [Order.new, ShoppingCart.getCartItems, InventoryList.getAllItems,
      isEmpty_items cart hempty, ShoppingCart.getTotalAmount]
  · intro s hs
    have he : s.manager.cart.isEmpty = true := by rw [hs]; exact hempty
    have hsame : ECommerceManager.checkout s = s := by
      simp [ECommerceManager.checkout, he]
    rw [hsame]
    exact ⟨rfl, rfl, hs⟩

/-- Witness of the amended C12: a freshly constructed cart and counter value 1. -/
theorem order_new_empty_witness :
    ShoppingCart.new.isEmpty = true ∧
    (Order.new 1 ShoppingCart.new).2 = 1 + 1 ∧
    (Order.new 1 ShoppingCart.new).1.orderItems = [] := by
  have hw := (order_new_empty 1 ShoppingCart.new (by decide)).1
  exact ⟨by decide, by rw [hw], by rw [hw]⟩

/-- C12 fails as stated: constructing an order from a freshly constructed (empty) cart
with the counter at 1 returns an order with id 1 and moves the counter to 2. -/
theorem order_new_empty_counterexample :
    ShoppingCart.new.isEmpty = true ∧
    (Order.new 1 ShoppingCart.new).1.orderId = 1 ∧
    (Order.new 1 ShoppingCart.new).2 = 2 ∧
    (Order.new 1 ShoppingCart.new).2 ≠ 1 := by
  refine ⟨by decide, rfl, rfl, by decide⟩

/-! ## C13: what an order records -/

theorem update_field {β : Type} (f : ProductObj → β) (h : Heap) (p : Ptr) (v : ProductObj)
    (hv : f v = f (h p)) (a : Ptr) : f (Function.update h p v a) = f (h a) := by
  by_cases ha : a = p
  · subst ha; rw [Function.update_same, hv]
  · rw [Function.update_noteq ha]

theorem ProductObj.getName_updateStock (o : ProductObj) (q : Int) :
    (o.updateStock q).getName = o.getName := by
  cases o <;>
    simp only [ProductObj.updateStock, Product.updateStock, Electronics.updateStock,
      ProductObj.getName, ProductObj.base] <;> split <;> rfl

theorem ProductObj.getName_setStock (o : ProductObj) (x : Int) :
    (o.setStock x).getName = o.getName := by
  cases o <;>
    simp only [ProductObj.setStock, Product.setStock, ProductObj.getName, ProductObj.base] <;>
    split <;> rfl

theorem ProductObj.getName_setPrice (o : ProductObj) (x : ℚ) :
    (o.setPrice x).getName = o.getName := by
  cases o <;>
    simp only [ProductObj.setPrice, Product.setPrice, ProductObj.getName, ProductObj.base] <;>
    split <;> rfl

theorem ProductObj.getPrice_setStock (o : ProductObj) (x : Int) :
    (o.setStock x).getPrice = o.getPrice := by
  cases o <;>
    simp only [ProductObj.setStock, Product.setStock, ProductObj.getPrice, ProductObj.base] <;>
    split <;> rfl

theorem clearCart_getName (s : Heap × ShoppingCart) (a : Ptr) :
    ((ShoppingCart.clearCart s).1 a).getName = (s.1 a).getName := by
  simp only [ShoppingCart.clearCart, InventoryList.getAllItems]
  generalize s.2.cartItems.items = items
  generalize s.1 = h
  induction items generalizing h with
  | nil => rfl
  | cons e es ih =>
    rw [List.foldl_cons, ih]
    exact update_field ProductObj.getName h _ _ (ProductObj.getName_updateStock _ _) a

theorem clearCart_getPrice (s : Heap × ShoppingCart) (a : Ptr) :
    ((ShoppingCart.clearCart s).1 a).getPrice = (s.1 a).getPrice := by
  simp only [ShoppingCart.clearCart, InventoryList.getAllItems, CartItem.getProduct,
    CartItem.getQuantity]
  exact foldl_updateStock_getPrice (fun e => e.product) _ _ a

theorem runCatalogOps_manager (s : System) (ops : List CatalogOp) :
    (runCatalogOps s ops).manager = s.manager ∧
    (runCatalogOps s ops).nextOrderId = s.nextOrderId := by
  unfold runCatalogOps
  induction ops generalizing s with
  | nil => exact ⟨rfl, rfl⟩
  | cons op ops ih =>
    rw [List.foldl_cons]
    obtain ⟨h1, h2⟩ := ih (CatalogOp.apply s op)
    rw [h1, h2]
    cases op <;> exact ⟨rfl, rfl⟩

theorem runCatalogOps_getName (s : System) (ops : List CatalogOp) (a : Ptr) :
    ((runCatalogOps s ops).heap a).getName = (s.heap a).getName := by
  unfold runCatalogOps
  induction ops generalizing s with
  | nil => rfl
  | cons op ops ih =>
    rw [List.foldl_cons, ih]
    cases op with
    | setPrice p x =>
      exact update_field ProductObj.getName s.heap p _ (ProductObj.getName_setPrice _ _) a
    | setStock p x =>
      exact update_field ProductObj.getName s.heap p _ (ProductObj.getName_setStock _ _) a
    | updateStock p d =>
      exact update_field ProductObj.getName s.heap p _ (ProductObj.getName_updateStock _ _) a

theorem runCatalogOps_getPrice (s : System) (ops : List CatalogOp)
    (hops : ∀ op ∈ ops, op.isSetPrice = false) (a : Ptr) :
    ((runCatalogOps s ops).heap a).getPrice = (s.heap a).getPrice := by
  unfold runCatalogOps
  induction ops generalizing s with
  | nil => rfl
  | cons op ops ih =>
    rw [List.foldl_cons, ih _ (fun x hx => hops x (List.mem_cons_of_mem _ hx))]
    have hop := hops op (List.mem_cons_self _ _)
    cases op with
    | setPrice p x => simp [CatalogOp.isSetPrice] at hop
    | setStock p x =>
      exact update_field ProductObj.getPrice s.heap p _ (ProductObj.getPrice_setStock _ _) a
    | updateStock p d =>
      exact update_field ProductObj.getPrice s.heap p _ (ProductObj.getPrice_updateStock _ _) a

theorem checkout_heap (s : System) (hne : s.manager.cart.isEmpty = false) :
    (ECommerceManager.checkout s).heap = (ShoppingCart.clearCart (s.heap, s.manager.cart)).1 := by
  simp only [ECommerceManager.checkout, hne, Bool.false_eq_true, if_false]

/-- C13 as the code has it. Let an order be created by `checkout` in state `s` and let any
sequence of `setPrice`, `setStock` and `updateStock` calls follow the cart clear of that
checkout. The order record itself (id, entries as product references with quantities,
total, status, date) is still the one built from the cart of `s`; the product name read
through an entry is the one at creation; the unit price and the line total read through an
entry are the ones at creation when no `setPrice` is among the calls. (The stock read
through an entry is the product's current stock.) -/
theorem order_record_stable (s : System) (ops : List CatalogOp)
    (hne : s.manager.cart.isEmpty = false) :
    (runCatalogOps (ECommerceManager.checkout s) ops).manager.orderHistory
      = s.manager.orderHistory ++ [(Order.new s.nextOrderId s.manager.cart).1] ∧
    (∀ e : CartItem,
      (e.recorded (runCatalogOps (ECommerceManager.checkout s) ops).heap).1
        = (e.recorded s.heap).1) ∧
    ((∀ op ∈ ops, op.isSetPrice = false) → ∀ e : CartItem,
      (e.recorded (runCatalogOps (ECommerceManager.checkout s) ops).heap).2.1
        = (e.recorded s.heap).2.1 ∧
      (e.recorded (runCatalogOps (ECommerceManager.checkout s) ops).heap).2.2.2
        = (e.recorded s.heap).2.2.2) := by
  refine ⟨?_, ?_, ?_⟩
  · rw [(runCatalogOps_manager _ ops).1]
    simp only [ECommerceManager.checkout, hne, Bool.false_eq_true, if_false]
  · intro e
    simp only [CartItem.recorded]
    rw [runCatalogOps_getName, checkout_heap s hne, clearCart_getName]
  · intro hops e
    have hp : ∀ a, ((runCatalogOps (ECommerceManager.checkout s) ops).heap a).getPrice
        = (s.heap a).getPrice := by
      intro a
      rw [runCatalogOps_getPrice _ ops hops, checkout_heap s hne, clearCart_getPrice]
    simp only [CartItem.recorded, CartItem.getTotalPrice, hp, and_self]

/-- Witness of the amended C13: the scenario order (3 of A), followed by `setStock(9)` and
`updateStock(-1)` on A. -/
theorem order_record_stable_witness :
    shopAfterAdd.manager.cart.isEmpty = false ∧
    (runCatalogOps (ECommerceManager.checkout shopAfterAdd)
        [CatalogOp.setStock 0 9, CatalogOp.updateStock 0 (-1)]).manager.orderHistory
      = shopAfterAdd.manager.orderHistory
          ++ [(Order.new shopAfterAdd.nextOrderId shopAfterAdd.manager.cart).1] ∧
    ((CartItem.mk 0 3).recorded (runCatalogOps (ECommerceManager.checkout shopAfterAdd)
        [CatalogOp.setStock 0 9, CatalogOp.updateStock 0 (-1)]).heap).2.2.2
      = ((CartItem.mk 0 3).recorded shopAfterAdd.heap).2.2.2 := by
  have hw := order_record_stable shopAfterAdd
    [CatalogOp.setStock 0 9, CatalogOp.updateStock 0 (-1)] (by decide)
  exact ⟨by decide, hw.1, ((hw.2.2 (by decide)) (CartItem.mk 0 3)).2⟩

/-- C13 fails as stated: the scenario order holds the entry (A, 3). Read through that
entry, A's stock is 2 when the order is created and 5 after the cart clear that follows in
the same checkout; after a later `A.setPrice(20)` the unit price read is 20 instead of 10
and the line total 60 instead of 30. -/
theorem order_snapshot_counterexample :
    (Order.new shopAfterAdd.nextOrderId shopAfterAdd.manager.cart).1.orderItems
      = [CartItem.mk 0 3] ∧
    (CartItem.mk 0 3).recorded shopAfterAdd.heap = ("A", 10, 2, 30) ∧
    (CartItem.mk 0 3).recorded (ECommerceManager.checkout shopAfterAdd).heap
      = ("A", 10, 5, 30) ∧
    (CartItem.mk 0 3).recorded
        (CatalogOp.apply (ECommerceManager.checkout shopAfterAdd) (CatalogOp.setPrice 0 20)).heap
      = ("A", 20, 5, 60) := by
  have h1 : shopAfterAdd.heap 0 = ProductObj.product (Product.mk 1 "A" 10 2) := rfl
  have h2 : (ECommerceManager.checkout shopAfterAdd).heap 0
      = ProductObj.product (Product.mk 1 "A" 10 5) := rfl
  have h3 : (CatalogOp.apply (ECommerceManager.checkout shopAfterAdd)
      (CatalogOp.setPrice 0 20)).heap 0 = ProductObj.product (Product.mk 1 "A" 20 5) := rfl
  refine ⟨rfl, ?_, ?_, ?_⟩
  · simp only [CartItem.recorded, CartItem.getTotalPrice, h1, ProductObj.getName,
      ProductObj.getPrice, ProductObj.getStock, ProductObj.base]
    norm_num
    decide
  · simp only [CartItem.recorded, CartItem.getTotalPrice, h2, ProductObj.getName,
      ProductObj.getPrice, ProductObj.getStock, ProductObj.base]
    norm_num
    decide
  · simp only [CartItem.recorded, CartItem.getTotalPrice, h3, ProductObj.getName,
      ProductObj.getPrice, ProductObj.getStock, ProductObj.base]
    norm_num
    decide

/-! ## C14, C15, C16: `applyDiscount` -/

/-- C14: for an object of dynamic type `Product` at `p`, `p->applyDiscount(rate)` returns
`price * (1 - rate)` when `0 <= rate <= 1` and the unchanged price otherwise; the store
after the call is the store before it (id, name, price and stock of every product are
unchanged), so a second call with the same rate returns the same value. -/
theorem product_applyDiscount (h : Heap) (p : Ptr) (prod : Product) (rate : ℚ)
    (hp : h p = ProductObj.product prod) :
    (0 ≤ rate ∧ rate ≤ 1 → (h.applyDiscount p rate).1 = prod.price * (1 - rate)) ∧
    (¬ (0 ≤ rate ∧ rate ≤ 1) → (h.applyDiscount p rate).1 = prod.price) ∧
    (h.applyDiscount p rate).2 = h ∧
    ((h.applyDiscount p rate).2.applyDiscount p rate).1 = (h.applyDiscount p rate).1 := by
  refine ⟨?_, ?_, rfl, rfl⟩
  · intro hr
    simp only [Heap.applyDiscount, hp, ProductObj.applyDiscount, Product.applyDiscount]
    rw [if_pos hr]
  · intro hr
    simp only [Heap.applyDiscount, hp, ProductObj.applyDiscount, Product.applyDiscount]
    rw [if_neg hr]

/-- Witness of C14: price 100; rate 0.10 gives 90 and rate 1.5 gives 100. -/
theorem product_applyDiscount_witness :
    (Heap.applyDiscount (fun _ => ProductObj.product (Product.mk 201 "Book" 100 20)) 0 0.10).1
        = 90 ∧
    (Heap.applyDiscount (fun _ => ProductObj.product (Product.mk 201 "Book" 100 20)) 0 1.5).1
        = 100 := by
  have h1 := (product_applyDiscount (fun _ => ProductObj.product (Product.mk 201 "Book" 100 20))
    0 (Product.mk 201 "Book" 100 20) 0.10 rfl).1 (by norm_num)
  have h2 := (product_applyDiscount (fun _ => ProductObj.product (Product.mk 201 "Book" 100 20))
    0 (Product.mk 201 "Book" 100 20) 1.5 rfl).2.1 (by norm_num)
  rw [h1, h2]
  norm_num

/-- C15: for an object of dynamic type `Electronics` at `p`, `p->applyDiscount(rate)`
returns `price * (1 - min(rate + 0.05, 1))` when `0 <= rate <= 1` and the unchanged price,
without bonus, otherwise; the store after the call is the store before it. -/
theorem electronics_applyDiscount (h : Heap) (p : Ptr) (e : Electronics) (rate : ℚ)
    (hp : h p = ProductObj.electronics e) :
    (0 ≤ rate ∧ rate ≤ 1 →
      (h.applyDiscount p rate).1 = e.price * (1 - min (rate + 0.05) 1)) ∧
    (¬ (0 ≤ rate ∧ rate ≤ 1) → (h.applyDiscount p rate).1 = e.price) ∧
    (h.applyDiscount p rate).2 = h := by
  refine ⟨?_, ?_, rfl⟩
  · intro hr
    simp only [Heap.applyDiscount, hp, ProductObj.applyDiscount, Electronics.applyDiscount]
    rw [if_pos hr]
  · intro hr
    simp only [Heap.applyDiscount, hp, ProductObj.applyDiscount, Electronics.applyDiscount]
    rw [if_neg hr]

/-- Witness of C15: price 100; rate 0.10 gives effective rate 0.15 and result 85; rate 0.97
gives effective rate 1 and result 0. -/
theorem electronics_applyDiscount_witness :
    min ((0.10 : ℚ) + 0.05) 1 = 0.15 ∧
    (Heap.applyDiscount (fun _ => ProductObj.electronics
        (Electronics.mk (Product.mk 101 "Laptop" 100 10) 24 "ASUS")) 0 0.10).1 = 85 ∧
    min ((0.97 : ℚ) + 0.05) 1 = 1 ∧
    (Heap.applyDiscount (fun _ => ProductObj.electronics
        (Electronics.mk (Product.mk 101 "Laptop" 100 10) 24 "ASUS")) 0 0.97).1 = 0 := by
  have h1 := (electronics_applyDiscount (fun _ => ProductObj.electronics
    (Electronics.mk (Product.mk 101 "Laptop" 100 10) 24 "ASUS")) 0
    (Electronics.mk (Product.mk 101 "Laptop" 100 10) 24 "ASUS") 0.10 rfl).1 (by norm_num)
  have h2 := (electronics_applyDiscount (fun _ => ProductObj.electronics
    (Electronics.mk (Product.mk 101 "Laptop" 100 10) 24 "ASUS")) 0
    (Electronics.mk (Product.mk 101 "Laptop" 100 10) 24 "ASUS") 0.97 rfl).1 (by norm_num)
  have m1 : min ((0.10 : ℚ) + 0.05) 1 = 0.15 := by norm_num
  have m2 : min ((0.97 : ℚ) + 0.05) 1 = 1 := by norm_num
  refine ⟨m1, ?_, m2, ?_⟩
  · rw [h1, m1]; norm_num
  · rw [h2, m2]; norm_num

/-- C16: `cart.applyDiscount(rate)` returns `totalAmount * (1 - rate)` when `0 <= rate <= 1`
and `totalAmount` otherwise; the state after the call (cached total, entries, every
product's stock and price) is the state before it. -/
theorem cart_applyDiscount (s : Heap × ShoppingCart) (rate : ℚ) :
    (ShoppingCart.applyDiscountCall s rate).1
      = (if 0 ≤ rate ∧ rate ≤ 1 then s.2.totalAmount * (1 - rate) else s.2.totalAmount) ∧
    (ShoppingCart.applyDiscountCall s rate).2 = s := by
  refine ⟨?_, rfl⟩
  simp only [ShoppingCart.applyDiscountCall, ShoppingCart.applyDiscount]
  by_cases hr : 0 ≤ rate ∧ rate ≤ 1
  · have hr2 : rate ≥ 0 ∧ rate ≤ 1 := hr
    rw [if_pos hr2, if_pos hr]; ring
  · have hr2 : ¬ (rate ≥ 0 ∧ rate ≤ 1) := hr
    rw [if_neg hr2, if_neg hr]

/-! ## C17: `clearCart` -/

theorem foldl_clear_stock (items : List CartItem) (h : Heap)
    (huniq : (entryIds h items).Nodup)
    (hpos : ∀ e ∈ items, 0 < e.quantity)
    (hstock : ∀ e ∈ items, 0 ≤ (h e.product).getStock)
    (hfit : ∀ e ∈ items, (h e.product).getStock + e.quantity ≤ 2147483647) :
    ∀ e ∈ items,
      (items.foldl (fun g x => g.updateStock x.product x.quantity) h e.product).getStock
        = (h e.product).getStock + e.quantity := by
  induction items generalizing h with
  | nil => intro e he; cases he
  | cons x xs ih =>
    simp only [entryIds, List.map_cons, List.nodup_cons, List.mem_map, not_exists,
      not_and] at huniq
    obtain ⟨hx, hxs⟩ := huniq
    have hne : ∀ y ∈ xs, y.product ≠ x.product := by
      intro y hy hc
      exact hx y hy (by rw [hc])
    intro e he
    rw [List.foldl_cons]
    rcases List.mem_cons.mp he with hex | hexs
    · subst hex
      have h1 := hpos e (List.mem_cons_self _ _)
      have h2 := hstock e (List.mem_cons_self _ _)
      have h3 := hfit e (List.mem_cons_self _ _)
      rw [foldl_updateStock_other (fun y => y.product) xs _ e.product hne,
        Heap.updateStock_same, ProductObj.getStock_updateStock_fit _ _ (by omega) h3]
    · have hsame : ∀ y ∈ xs, h.updateStock x.product x.quantity y.product = h y.product :=
        fun y hy => Heap.updateStock_other h x.product x.quantity y.product (hne y hy)
      rw [ih (h.updateStock x.product x.quantity)
        (by rw [entryIds_updateStock]; exact hxs)
        (fun y hy => hpos y (List.mem_cons_of_mem _ hy))
        (fun y hy => by rw [hsame y hy]; exact hstock y (List.mem_cons_of_mem _ hy))
        (fun y hy => by rw [hsame y hy]; exact hfit y (List.mem_cons_of_mem _ hy))
        e hexs, hsame e hexs]

/-- C17 as the code has it: on a cart with pairwise distinct entry ids, positive entry
quantities and products of stock `>= 0`, where for each entry the product's stock plus the
entry's quantity does not exceed `INT_MAX`, `clearCart` raises the stock of each product
that has an entry of quantity `k` by exactly `k`, leaves every product without an entry as
it was, and leaves the cart with no entries and `totalAmount` 0. -/
theorem clearCart_restores (h : Heap) (c : ShoppingCart)
    (huniq : (entryIds h c.cartItems.items).Nodup)
    (hpos : ∀ e ∈ c.cartItems.items, 0 < e.quantity)
    (hstock : ∀ e ∈ c.cartItems.items, 0 ≤ (h e.product).getStock)
    (hfit : ∀ e ∈ c.cartItems.items, (h e.product).getStock + e.quantity ≤ INT_MAX) :
    (∀ e ∈ c.cartItems.items,
      ((ShoppingCart.clearCart (h, c)).1 e.product).getStock
        = (h e.product).getStock + e.quantity) ∧
    (∀ a, (∀ e ∈ c.cartItems.items, e.product ≠ a) →
      (ShoppingCart.clearCart (h, c)).1 a = h a) ∧
    (ShoppingCart.clearCart (h, c)).2.cartItems.items = [] ∧
    (ShoppingCart.clearCart (h, c)).2.totalAmount = 0 := by
  refine ⟨?_, ?_, rfl, rfl⟩
  · simp only [ShoppingCart.clearCart, InventoryList.getAllItems, CartItem.getProduct,
      CartItem.getQuantity]
    exact foldl_clear_stock c.cartItems.items h huniq hpos hstock hfit
  · intro a ha
    simp only [ShoppingCart.clearCart, InventoryList.getAllItems, CartItem.getProduct,
      CartItem.getQuantity]
    exact foldl_updateStock_other (fun y => y.product) c.cartItems.items h a ha

/-- Witness of the amended C17: clearing the scenario cart holding 3 of A (stock 2) gives
A.stock 5 and leaves B at address 1 as it was. -/
theorem clearCart_restores_witness :
    ((ShoppingCart.clearCart (afterAdd3.1, afterAdd3.2)).1 0).getStock = 5 ∧
    (ShoppingCart.clearCart (afterAdd3.1, afterAdd3.2)).1 1 = afterAdd3.1 1 ∧
    (ShoppingCart.clearCart (afterAdd3.1, afterAdd3.2)).2.cartItems.items = [] ∧
    (ShoppingCart.clearCart (afterAdd3.1, afterAdd3.2)).2.totalAmount = 0 := by
  have hitems : afterAdd3.2.cartItems.items = [CartItem.mk 0 3] := by rw [afterAdd3_eq]
  have hw := clearCart_restores afterAdd3.1 afterAdd3.2
    (by rw [hitems]; simp [entryIds])
    (by rw [hitems]; intro e he; rw [List.mem_singleton.mp he]; decide)
    (by rw [hitems]; intro e he; rw [List.mem_singleton.mp he, afterAdd3_stock]; decide)
    (by rw [hitems]; intro e he; rw [List.mem_singleton.mp he, afterAdd3_stock]; decide)
  obtain ⟨h1, h2, h3, h4⟩ := hw
  refine ⟨?_, ?_, h3, h4⟩
  · have := h1 (CartItem.mk 0 3) (by rw [hitems]; simp)
    rw [this, afterAdd3_stock]; rfl
  · exact h2 1 (by rw [hitems]; intro e he; rw [List.mem_singleton.mp he]; decide)

/-- C17 fails as stated: the cart holds the single entry (P, 1) and P.stock is `INT_MAX`
(`>= 0`). `clearCart` calls `P.updateStock(1)`; the `int` sum `INT_MAX + 1` is negative,
the credit is rejected, and P.stock is still `INT_MAX` instead of `INT_MAX + 1`, while the
cart is emptied. -/
theorem clearCart_restores_counterexample :
    afterSetStockMax.2.cartItems.items = [CartItem.mk 0 1] ∧
    (afterSetStockMax.1 0).getStock = 2147483647 ∧
    ((ShoppingCart.clearCart afterSetStockMax).1 0).getStock = 2147483647 ∧
    ((ShoppingCart.clearCart afterSetStockMax).1 0).getStock
      ≠ (afterSetStockMax.1 0).getStock + 1 ∧
    (ShoppingCart.clearCart afterSetStockMax).2.cartItems.items = [] := by
  refine ⟨?_, ?_, ?_, ?_, ?_⟩ <;> decide

/-! ## C18: `updateStock` in both variants -/

/-- C18 as the code has it: `Product::updateStock(delta)` and
`Electronics::updateStock(delta)` set the stock to `stock + delta` when
`0 <= stock + delta <= INT_MAX`, leave it unchanged when `INT_MIN <= stock + delta < 0`,
and change no other field; the override computes on the base sub-object exactly what the
base implementation computes, for every stock and delta, so the resulting stock is the
same. -/
theorem updateStock_variants (p : Product) (e : Electronics) (delta : Int) :
    (0 ≤ p.stock.val + delta ∧ p.stock.val + delta ≤ INT_MAX →
      (p.updateStock delta).stock.val = p.stock.val + delta) ∧
    (INT_MIN ≤ p.stock.val + delta ∧ p.stock.val + delta < 0 →
      (p.updateStock delta).stock = p.stock) ∧
    (p.updateStock delta).id = p.id ∧ (p.updateStock delta).name = p.name ∧
    (p.updateStock delta).price = p.price ∧
    (0 ≤ e.stock.val + delta ∧ e.stock.val + delta ≤ INT_MAX →
      (e.updateStock delta).stock.val = e.stock.val + delta) ∧
    (INT_MIN ≤ e.stock.val + delta ∧ e.stock.val + delta < 0 →
      (e.updateStock delta).stock = e.stock) ∧
    (e.updateStock delta).id = e.id ∧ (e.updateStock delta).name = e.name ∧
    (e.updateStock delta).price = e.price ∧
    (e.updateStock delta).warrantyPeriod = e.warrantyPeriod ∧
    (e.updateStock delta).brand = e.brand ∧
    (e.updateStock delta).toProduct = e.toProduct.updateStock delta := by
  have hset : ∀ x : Int, 0 ≤ x ∧ x ≤ INT_MAX → int32 x = x ∧ int32 x ≥ 0 := by
    intro x hx
    simp only [INT_MAX] at hx
    rw [int32_of_range x (by omega) hx.2]
    exact ⟨rfl, hx.1⟩
  have hkeep : ∀ x : Int, INT_MIN ≤ x ∧ x < 0 → ¬ int32 x ≥ 0 := by
    intro x hx
    simp only [INT_MIN] at hx
    rw [int32_of_range x hx.1 (by omega)]
    omega
  refine ⟨?_, ?_, ?_, ?_, ?_, ?_, ?_, ?_, ?_, ?_, ?_, ?_, ?_⟩
  · intro hx
    have h1 := (hset _ hx).1
    have h2 := (hset _ hx).2
    simp only [Product.updateStock, CInt.ofInt, h1] at h2 ⊢
    rw [if_pos h2]
  · intro hx
    simp only [Product.updateStock, hkeep _ hx, if_false]
  · simp only [Product.updateStock]; split <;> rfl
  · simp only [Product.updateStock]; split <;> rfl
  · simp only [Product.updateStock]; split <;> rfl
  · intro hx
    have h1 := (hset _ hx).1
    have h2 := (hset _ hx).2
    simp only [Electronics.updateStock, CInt.ofInt, h1] at h2 ⊢
    rw [if_pos h2]
  · intro hx
    simp only [Electronics.updateStock, hkeep _ hx, if_false]
  · simp only [Electronics.updateStock]; split <;> rfl
  · simp only [Electronics.updateStock]; split <;> rfl
  · simp only [Electronics.updateStock]; split <;> rfl
  · simp only [Electronics.updateStock]; split <;> rfl
  · simp only [Electronics.updateStock]; split <;> rfl
  · simp only [Product.updateStock, Electronics.updateStock]; split <;> rfl

/-- Witness of the amended C18: stock 5; `updateStock(-3)` gives 2 and `updateStock(-7)`
leaves 5, for a `Product` and for an `Electronics`. -/
theorem updateStock_variants_witness :
    ((Product.mk 201 "Book" 50 5).updateStock (-3)).stock.val = 5 + -3 ∧
    ((Product.mk 201 "Book" 50 5).updateStock (-7)).stock = (Product.mk 201 "Book" 50 5).stock ∧
    ((Electronics.mk (Product.mk 101 "Laptop" 100 5) 24 "ASUS").updateStock (-3)).stock.val
      = 5 + -3 ∧
    ((Electronics.mk (Product.mk 101 "Laptop" 100 5) 24 "ASUS").updateStock (-7)).stock
      = (Electronics.mk (Product.mk 101 "Laptop" 100 5) 24 "ASUS").stock :=
  ⟨(updateStock_variants (Product.mk 201 "Book" 50 5)
      (Electronics.mk (Product.mk 101 "Laptop" 100 5) 24 "ASUS") (-3)).1 (by decide),
   (updateStock_variants (Product.mk 201 "Book" 50 5)
      (Electronics.mk (Product.mk 101 "Laptop" 100 5) 24 "ASUS") (-7)).2.1 (by decide),
   (updateStock_variants (Product.mk 201 "Book" 50 5)
      (Electronics.mk (Product.mk 101 "Laptop" 100 5) 24 "ASUS") (-3)).2.2.2.2.2.1 (by decide),
   (updateStock_variants (Product.mk 201 "Book" 50 5)
      (Electronics.mk (Product.mk 101 "Laptop" 100 5) 24 "ASUS") (-7)).2.2.2.2.2.2.1
      (by decide)⟩

/-- C18 fails as stated: with stock `INT_MAX` and delta 1 the sum `stock + delta` is
`2147483648 >= 0`, but `updateStock(1)` leaves the stock at `INT_MAX` in both variants: the
`int` sum is negative and the call is rejected. -/
theorem updateStock_variants_counterexample :
    (Product.mk 201 "Book" 50 2147483647).stock.val + 1 ≥ 0 ∧
    ((Product.mk 201 "Book" 50 2147483647).updateStock 1).stock.val = 2147483647 ∧
    ((Product.mk 201 "Book" 50 2147483647).updateStock 1).stock.val
      ≠ (Product.mk 201 "Book" 50 2147483647).stock.val + 1 ∧
    ((Electronics.mk (Product.mk 101 "Laptop" 100 2147483647) 24 "ASUS").updateStock 1).stock.val
      = 2147483647 := by
  refine ⟨?_, ?_, ?_, ?_⟩ <;> decide

/-! ## C19: `InventoryList::removeItem` -/

theorem findIdx_erase (α : Type) (p : α → Bool) (l : List α) :
    (l.findIdx? p).isSome = l.any p ∧
    (match l.findIdx? p with
      | some i => l.eraseIdx i
      | none => l) = l.eraseP p := by
  induction l with
  | nil => simp
  | cons x xs ih =>
    cases hx : p x
    · obtain ⟨ih1, ih2⟩ := ih
      rw [List.findIdx?_cons, List.findIdx?_succ]
      simp only [hx, Bool.false_eq_true, if_false, zero_add, List.any_cons, Bool.false_or]
      cases hf : xs.findIdx? p with
      | none =>
        rw [hf] at ih1 ih2
        simp only [Option.map_none', Option.isSome_none] at ih1 ⊢
        refine ⟨ih1, ?_⟩
        rw [List.eraseP_cons_of_neg (by simp [hx]), ← ih2]
      | some i =>
        rw [hf] at ih1 ih2
        simp only [Option.map_some', Option.isSome_some] at ih1 ⊢
        refine ⟨ih1, ?_⟩
        rw [List.eraseP_cons_of_neg (by simp [hx]), ← ih2]
        rfl
    · rw [List.findIdx?_cons]
      simp [hx]

/-- C19: `removeItem` returns true exactly when `searchItem` is true; when it returns true
the old contents split as `pre ++ x :: post` with `x == item`, no element of `pre` equal to
`item`, and the new contents are `pre ++ post` (one element fewer, the rest in order); when
it returns false the list is unchanged. -/
theorem removeItem_first_equal (α : Type) (eq : α → α → Bool) (l : InventoryList α) (item : α) :
    (l.removeItem eq item).1 = l.searchItem eq item ∧
    (l.searchItem eq item = true →
      ∃ pre x post, l.items = pre ++ x :: post ∧ eq x item = true ∧
        (∀ y ∈ pre, eq y item = false) ∧
        (l.removeItem eq item).2.items = pre ++ post ∧
        (l.removeItem eq item).2.size + 1 = l.size) ∧
    (l.searchItem eq item = false → (l.removeItem eq item).2 = l) := by
  obtain ⟨h1, h2⟩ := findIdx_erase α (fun x => eq x item) l.items
  have hfst : (l.removeItem eq item).1 = l.searchItem eq item := by
    simp only [InventoryList.removeItem, InventoryList.searchItem, ← h1]
    cases l.items.findIdx? (fun x => eq x item) <;> rfl
  have hsnd : (l.removeItem eq item).2.items = l.items.eraseP (fun x => eq x item) := by
    rw [← h2]
    simp only [InventoryList.removeItem]
    cases l.items.findIdx? (fun x => eq x item) <;> rfl
  refine ⟨hfst, ?_, ?_⟩
  · intro hs
    simp only [InventoryList.searchItem, List.any_eq_true] at hs
    obtain ⟨a, ha, hpa⟩ := hs
    obtain ⟨x, pre, post, hpre, hx, hl, he⟩ :=
      List.exists_of_eraseP (p := fun x => eq x item) ha hpa
    refine ⟨pre, x, post, hl, hx, ?_, ?_, ?_⟩
    · intro y hy
      simpa using hpre y hy
    · rw [hsnd, he]
    · show (l.removeItem eq item).2.items.length + 1 = l.items.length
      rw [hsnd, he, hl, List.length_append, List.length_append, List.length_cons]
      omega
  · intro hs
    have hnone : l.items.findIdx? (fun x => eq x item) = none := by
      simp only [InventoryList.searchItem] at hs
      rw [hs] at h1
      cases hf : l.items.findIdx? (fun x => eq x item) with
      | none => rfl
      | some i => rw [hf] at h1; simp at h1
    simp only [InventoryList.removeItem, hnone]

/-- Witness of C19: removing 1002 from the order-id list 1001, 1002, 1003, 1002 deletes the
first 1002 only; removing 7 changes nothing. -/
theorem removeItem_first_equal_witness :
    InventoryList.removeItem (fun a b : Int => decide (a = b))
        (InventoryList.mk [1001, 1002, 1003, 1002]) 1002
      = (true, InventoryList.mk [1001, 1003, 1002]) ∧
    InventoryList.removeItem (fun a b : Int => decide (a = b))
        (InventoryList.mk [1001, 1002, 1003, 1002]) 7
      = (false, InventoryList.mk [1001, 1002, 1003, 1002]) ∧
    (InventoryList.removeItem (fun a b : Int => decide (a = b))
        (InventoryList.mk [1001, 1002, 1003, 1002]) 1002).1
      = InventoryList.searchItem (fun a b : Int => decide (a = b))
          (InventoryList.mk [1001, 1002, 1003, 1002]) 1002 :=
  ⟨by decide, by decide,
   (removeItem_first_equal Int (fun a b : Int => decide (a = b))
      (InventoryList.mk [1001, 1002, 1003, 1002]) 1002).1⟩

/-! ## C20: catalog ids -/

theorem foldl_addProductToInventory (products : List (Option Ptr)) (s : System) :
    (products.foldl ECommerceManager.addProductToInventory s).heap = s.heap ∧
    (products.foldl ECommerceManager.addProductToInventory s).manager.inventory.items
      = s.manager.inventory.items ++ products.reduceOption := by
  induction products generalizing s with
  | nil => simp
  | cons x xs ih =>
    rw [List.foldl_cons]
    obtain ⟨h1, h2⟩ := ih (ECommerceManager.addProductToInventory s x)
    rw [h1, h2]
    cases x with
    | none => simp [ECommerceManager.addProductToInventory]
    | some p =>
      simp [ECommerceManager.addProductToInventory, InventoryList.addItem,
        List.reduceOption_cons_of_some]

/-- C20 as the code has it: `addProductToInventory` appends every non-null product and
checks nothing else, so the catalog reached from the empty catalog is exactly the sequence
of the non-null arguments in call order, over an unchanged store. Its ids are pairwise
distinct exactly when the ids of those arguments are. -/
theorem catalog_is_arguments (h : Heap) (products : List (Option Ptr)) :
    (addAllToInventory h products).manager.inventory.items = products.reduceOption ∧
    (addAllToInventory h products).heap = h ∧
    ((catalogIds (addAllToInventory h products)).Nodup ↔
      (products.reduceOption.map (fun p => (h p).getId)).Nodup) := by
  obtain ⟨h1, h2⟩ := foldl_addProductToInventory products (ECommerceManager.init h)
  have hitems : (addAllToInventory h products).manager.inventory.items
      = products.reduceOption := by
    unfold addAllToInventory
    rw [h2]
    rfl
  have hheap : (addAllToInventory h products).heap = h := by
    unfold addAllToInventory
    rw [h1]
    rfl
  refine ⟨hitems, hheap, ?_⟩
  simp only [catalogIds, hitems, hheap]

/-- C20 fails as stated: adding the two distinct objects at addresses 1 and 2, which both
have id 2, gives a catalog with the ids 2, 2. -/
theorem catalog_ids_counterexample :
    catalogIds (addAllToInventory storeA [some 1, some 2]) = [2, 2] ∧
    ¬ (catalogIds (addAllToInventory storeA [some 1, some 2])).Nodup := by
  have h : catalogIds (addAllToInventory storeA [some 1, some 2]) = [2, 2] := by decide
  refine ⟨h, ?_⟩
  rw [h]
  decide

/-! ## C21: the rebuild loop and in-place merge -/

theorem map_setQuantity_of_absent (h : Heap) (p : Ptr) (q : Int) (items : List CartItem)
    (hno : ∀ e ∈ items, (h e.product).getId ≠ (h p).getId) :
    items.map (fun e => if sameProduct h p e then e.setQuantity (int32 (e.getQuantity + q)) else e)
      = items := by
  conv_rhs => rw [← List.map_id items]
  apply List.map_congr_left
  intro e he
  simp [sameProduct, hno e he]

theorem inPlaceMerge_of_absent (h : Heap) (p : Ptr) (q : Int) (items : List CartItem)
    (hno : ∀ e ∈ items, (h e.product).getId ≠ (h p).getId) :
    inPlaceMerge h p q items = items ++ [CartItem.mk p q] := by
  induction items with
  | nil => rfl
  | cons x xs ih =>
    have hx := hno x (List.mem_cons_self _ _)
    simp only [inPlaceMerge, hx, if_false, List.cons_append]
    rw [ih (fun e he => hno e (List.mem_cons_of_mem _ he))]

/-- The entry list built by the rebuild loop of an accepted `operator+=` is the in-place
merge, on carts with pairwise distinct entry ids and positive quantities, when the `int`
sum of the matching entry's quantity and `q` does not overflow. -/
theorem rebuild_eq_merge (h : Heap) (p : Ptr) (q : Int) (items : List CartItem)
    (huniq : (entryIds h items).Nodup) (hpos : ∀ e ∈ items, 0 < e.quantity) (hq : 0 < q)
    (hfit : ∀ e ∈ items, (h e.product).getId = (h p).getId → e.quantity + q ≤ 2147483647) :
    items.map (fun e =>
          if sameProduct h p e then e.setQuantity (int32 (e.getQuantity + q)) else e)
        ++ (if items.any (sameProduct h p) then [] else [CartItem.mk p q])
      = inPlaceMerge h p q items := by
  induction items with
  | nil => rfl
  | cons x xs ih =>
    simp only [entryIds, List.map_cons, List.nodup_cons, List.mem_map, not_exists,
      not_and] at huniq
    obtain ⟨hx, hxs⟩ := huniq
    by_cases hm : (h x.product).getId = (h p).getId
    · have hno : ∀ e ∈ xs, (h e.product).getId ≠ (h p).getId :=
        fun e he hc => hx e he (hc.trans hm.symm)
      have hxq : x.quantity + q > 0 := by
        have := hpos x (List.mem_cons_self _ _); omega
      have hw : int32 (x.quantity + q) = x.quantity + q :=
        int32_of_range _ (by omega) (hfit x (List.mem_cons_self _ _) hm)
      simp only [List.map_cons, List.any_cons, sameProduct, hm, decide_True, if_true,
        Bool.true_or, List.append_nil, inPlaceMerge, CartItem.setQuantity,
        CartItem.getQuantity, hw, hxq]
      congr 1
      exact map_setQuantity_of_absent h p q xs hno
    · have hs : sameProduct h p x = false := by simp [sameProduct, hm]
      simp only [List.map_cons, List.any_cons, hs, Bool.false_eq_true, if_false,
        Bool.false_or, inPlaceMerge, hm, List.cons_append]
      congr 1
      exact ih hxs (fun e he => hpos e (List.mem_cons_of_mem _ he))
        (fun e he => hfit e (List.mem_cons_of_mem _ he))

/-- C21 as the code has it: for every cart with positive entry quantities and pairwise
distinct entry ids, and every accepted add (`q > 0`, `p.stock >= q`) for which the quantity
of the entry with `p`'s id plus `q` does not exceed `INT_MAX`, the entry list that
`operator+=` builds by emptying the container and re-adding every entry is equal to the
entry list of the in-place merge. -/
theorem rebuild_equals_in_place_merge (h : Heap) (c : ShoppingCart) (p : Ptr) (q : Int)
    (hpos : ∀ e ∈ c.cartItems.items, 0 < e.quantity)
    (huniq : (entryIds h c.cartItems.items).Nodup)
    (hfit : ∀ e ∈ c.cartItems.items, (h e.product).getId = (h p).getId →
      e.quantity + q ≤ INT_MAX)
    (hq : 0 < q) (hstock : q ≤ (h p).getStock) :
    (ShoppingCart.operatorAddAssign (h, c) (some p) q).2.cartItems.items
      = inPlaceMerge h p q c.cartItems.items := by
  rw [operatorAddAssign_accept h c p q hq hstock, calculateTotal_cartItems]
  exact rebuild_eq_merge h p q c.cartItems.items huniq hpos hq hfit

/-- Witness of the amended C21: adding 1 more of A to the scenario cart holding 3 of A
gives the single entry (A, 4), as the in-place merge does. -/
theorem rebuild_equals_in_place_merge_witness :
    inPlaceMerge afterAdd3.1 0 1 afterAdd3.2.cartItems.items = [CartItem.mk 0 4] ∧
    (ShoppingCart.operatorAddAssign (afterAdd3.1, afterAdd3.2) (some 0) 1).2.cartItems.items
      = inPlaceMerge afterAdd3.1 0 1 afterAdd3.2.cartItems.items := by
  have hitems : afterAdd3.2.cartItems.items = [CartItem.mk 0 3] := by rw [afterAdd3_eq]
  refine ⟨?_, ?_⟩
  · rw [hitems]
    simp [inPlaceMerge]
  · exact rebuild_equals_in_place_merge afterAdd3.1 afterAdd3.2 0 1
      (by rw [hitems]; intro e he; rw [List.mem_singleton.mp he]; decide)
      (by rw [hitems]; simp [entryIds])
      (by rw [hitems]; intro e he _; rw [List.mem_singleton.mp he]; decide)
      (by decide) (by rw [afterAdd3_stock]; decide)

/-- C21 fails as stated: the cart holds the single entry (P, `INT_MAX`) (positive quantity,
distinct ids) and Q is a second object with P's id and stock 5, so `cart += (Q, 1)` is
accepted. The rebuild loop keeps the entry at `INT_MAX` (the `int` sum is negative and
`setQuantity` rejects it), while the in-place merge increases it to `INT_MAX + 1`. -/
theorem rebuild_equals_in_place_merge_counterexample :
    (ShoppingCart.operatorAddAssign afterAddMax (some 1) 1).2.cartItems.items
      = [CartItem.mk 0 2147483647] ∧
    inPlaceMerge afterAddMax.1 1 1 afterAddMax.2.cartItems.items
      = [CartItem.mk 0 2147483648] ∧
    (ShoppingCart.operatorAddAssign afterAddMax (some 1) 1).2.cartItems.items
      ≠ inPlaceMerge afterAddMax.1 1 1 afterAddMax.2.cartItems.items := by
  refine ⟨?_, ?_, ?_⟩ <;> decide

/-! ## C23: add then remove -/

theorem Product.updateStock_round_trip (p : Product) (q : Int)
    (hq : 0 < q) (hstock : q ≤ p.stock.val) :
    (p.updateStock (-q)).updateStock q = p := by
  have hlo := p.stock.lo
  have hhi := p.stock.hi
  have e1 : int32 (p.stock.val + -q) = p.stock.val + -q :=
    int32_of_range _ (by omega) (by omega)
  have g1 : p.stock.val + -q ≥ 0 := by omega
  simp only [Product.updateStock, e1, CInt.ofInt, g1, if_true]
  have e2 : int32 (p.stock.val + -q + q) = p.stock.val := by
    rw [int32_of_range _ (by omega) (by omega)]; omega
  have g2 : p.stock.val ≥ 0 := by omega
  simp only [e2, g2, if_true]

theorem Electronics.updateStock_round_trip_e (e : Electronics) (q : Int)
    (hq : 0 < q) (hstock : q ≤ e.stock.val) :
    (e.updateStock (-q)).updateStock q = e := by
  have hlo := e.stock.lo
  have hhi := e.stock.hi
  have e1 : int32 (e.stock.val + -q) = e.stock.val + -q :=
    int32_of_range _ (by omega) (by omega)
  have g1 : e.stock.val + -q ≥ 0 := by omega
  simp only [Electronics.updateStock, e1, CInt.ofInt, g1, if_true]
  have e2 : int32 (e.stock.val + -q + q) = e.stock.val := by
    rw [int32_of_range _ (by omega) (by omega)]; omega
  have g2 : e.stock.val ≥ 0 := by omega
  simp only [e2, g2, if_true]

theorem ProductObj.updateStock_round_trip_obj (o : ProductObj) (q : Int)
    (hq : 0 < q) (hstock : q ≤ o.getStock) :
    (o.updateStock (-q)).updateStock q = o := by
  cases o with
  | product p =>
    simp only [ProductObj.getStock, ProductObj.base] at hstock
    simp only [ProductObj.updateStock, Product.updateStock_round_trip p q hq hstock]
  | electronics e =>
    simp only [ProductObj.getStock, ProductObj.base] at hstock
    simp only [ProductObj.updateStock, Electronics.updateStock_round_trip_e e q hq hstock]

theorem Heap.updateStock_undo (h : Heap) (p : Ptr) (q : Int)
    (hq : 0 < q) (hstock : q ≤ (h p).getStock) :
    (h.updateStock p (-q)).updateStock p q = h := by
  unfold Heap.updateStock
  rw [Function.update_same, Function.update_idem,
    ProductObj.updateStock_round_trip_obj (h p) q hq hstock, Function.update_eq_self]

/-- C23: on a cart whose cached total is the sum of its line totals and that holds no
entry with the id of `p`, an accepted `operator+=` of `q` units of `p` followed by
`operator-=` of `p` returns exactly the state before the two calls: the store (hence the
stock of `p` and of every other product), the entries in their order and the total. -/
theorem add_remove_round_trip (h : Heap) (c : ShoppingCart) (p : Ptr) (q : Int)
    (htotal : c.totalAmount = lineTotal h c.cartItems.items)
    (hno : ∀ e ∈ c.cartItems.items, (h e.product).getId ≠ (h p).getId)
    (hq : 0 < q) (hstock : q ≤ (h p).getStock) :
    ShoppingCart.operatorSubAssign (ShoppingCart.operatorAddAssign (h, c) (some p) q) (some p)
      = (h, c) := by
  have hany : c.cartItems.items.any (sameProduct h p) = false := by
    rw [Bool.eq_false_iff]
    intro hc
    simp only [List.any_eq_true, sameProduct, decide_eq_true_eq] at hc
    obtain ⟨e, he, hid⟩ := hc
    exact hno e he hid
  obtain ⟨hf1, hf2⟩ := filter_sameProduct_of_absent h p c.cartItems.items hno
  have hnew : sameProduct h p (CartItem.mk p q) = true := by simp [sameProduct]
  rw [operatorAddAssign_accept h c p q hq hstock, operatorSubAssign_some]
  simp only [calculateTotal_cartItems, sameProduct_updateStock,
    map_setQuantity_of_absent h p q c.cartItems.items hno, hany, Bool.false_eq_true, if_false,
    List.filter_append, hf1, hf2, List.nil_append]
  simp only [List.filter_cons, hnew, if_true, List.filter_nil, Bool.not_true,
    Bool.false_eq_true, if_false, List.append_nil, List.foldl_cons, List.foldl_nil,
    Heap.updateStock_undo h p q hq hstock]
  have hc : ShoppingCart.calculateTotal h
      { cartItems := { items := c.cartItems.items }, totalAmount := c.totalAmount } = c := by
    simp only [ShoppingCart.calculateTotal, InventoryList.getAllItems, foldl_total, zero_add,
      ← htotal]
  exact congrArg (Prod.mk h) hc

/-- Witness of C23: adding 3 of A (stock 5) to a new cart and removing A again. -/
theorem add_remove_round_trip_witness :
    ShoppingCart.operatorSubAssign
        (ShoppingCart.operatorAddAssign (storeA, ShoppingCart.new) (some 0) 3) (some 0)
      = (storeA, ShoppingCart.new) :=
  add_remove_round_trip storeA ShoppingCart.new 0 3
    (by simp [ShoppingCart.new, InventoryList.new, lineTotal])
    (by intro e he; simp [ShoppingCart.new, InventoryList.new] at he)
    (by decide) (by decide)

/-! ## C24: `removeProduct` -/

/-- C24: `ShoppingCart::removeProduct` returns true for every state and every argument,
and the state after it is the state after `operator-=`; in particular it returns true for
a null product (state unchanged) and for a product without entry in the cart, so the
return value does not tell a performed removal from a rejected one. -/
theorem removeProduct_always_true (s : Heap × ShoppingCart) (product other : Option Ptr) :
    (ShoppingCart.removeProduct s product).1 = true ∧
    (ShoppingCart.removeProduct s product).2 = ShoppingCart.operatorSubAssign s product ∧
    ShoppingCart.removeProduct s none = (true, s) ∧
    (ShoppingCart.removeProduct s product).1 = (ShoppingCart.removeProduct s other).1 :=
  ⟨rfl, rfl, rfl, rfl⟩

/-! ## C22: stock conservation across manager calls -/

theorem searchById_congr (h g : Heap) (inv : InventoryList Ptr) (id : Int)
    (hid : ∀ a, (g a).getId = (h a).getId) :
    inv.searchById g id = inv.searchById h id := by
  simp only [InventoryList.searchById, hid]

theorem searchById_some_id (h : Heap) (inv : InventoryList Ptr) (id : Int) (p : Ptr)
    (hs : inv.searchById h id = some p) : (h p).getId = id := by
  have := List.find?_some hs
  simpa using this

theorem searchById_addItem (h : Heap) (inv : InventoryList Ptr) (id : Int) (p x : Ptr)
    (hs : inv.searchById h id = some p) : (inv.addItem x).searchById h id = some p := by
  simp only [InventoryList.searchById, InventoryList.addItem, List.find?_append] at hs ⊢
  rw [hs]
  rfl

theorem mem_inPlaceMerge (h : Heap) (p : Ptr) (q : Int) (items : List CartItem)
    (e' : CartItem) (he' : e' ∈ inPlaceMerge h p q items) :
    (e' = CartItem.mk p q) ∨
      ∃ e ∈ items, e'.product = e.product ∧
        (e'.quantity = e.quantity ∨ e'.quantity = e.quantity + q) := by
  induction items with
  | nil =>
    left
    simpa [inPlaceMerge] using he'
  | cons x xs ih =>
    by_cases hm : (h x.product).getId = (h p).getId
    · simp only [inPlaceMerge, hm, if_true, List.mem_cons] at he'
      rcases he' with hx | hxs
      · right
        exact ⟨x, List.mem_cons_self _ _, by rw [hx], Or.inr (by rw [hx])⟩
      · right
        exact ⟨e', List.mem_cons_of_mem _ hxs, rfl, Or.inl rfl⟩
    · simp only [inPlaceMerge, hm, if_false, List.mem_cons] at he'
      rcases he' with hx | hxs
      · right
        exact ⟨x, List.mem_cons_self _ _, by rw [hx], Or.inl (by rw [hx])⟩
      · rcases ih hxs with hnew | ⟨e, he, hp, hq⟩
        · exact Or.inl hnew
        · exact Or.inr ⟨e, List.mem_cons_of_mem _ he, hp, hq⟩

theorem heldAt_inPlaceMerge (h : Heap) (p : Ptr) (q : Int) (items : List CartItem) (a : Ptr)
    (hk : ∀ e ∈ items, (h e.product).getId = (h p).getId → e.product = p) :
    heldAt a (inPlaceMerge h p q items) = heldAt a items + (if p = a then q else 0) := by
  induction items with
  | nil => simp [inPlaceMerge, heldAt]
  | cons x xs ih =>
    by_cases hm : (h x.product).getId = (h p).getId
    · have hx : x.product = p := hk x (List.mem_cons_self _ _) hm
      simp only [inPlaceMerge, hm, if_true, heldAt, List.map_cons, List.sum_cons, hx]
      split <;> ring
    · have ih' := ih (fun e he => hk e (List.mem_cons_of_mem _ he))
      simp only [heldAt] at ih'
      simp only [inPlaceMerge, hm, if_false, heldAt, List.map_cons, List.sum_cons, ih']
      ring

theorem heldAt_filter (a : Ptr) (f : CartItem → Bool) (items : List CartItem) :
    heldAt a items = heldAt a (items.filter f) + heldAt a (items.filter (fun e => !f e)) := by
  induction items with
  | nil => simp [heldAt]
  | cons x xs ih =>
    simp only [heldAt] at ih
    cases hf : f x <;>
      simp only [heldAt, List.filter_cons, hf, Bool.not_false, Bool.not_true, if_true,
        Bool.false_eq_true, if_false, List.map_cons, List.sum_cons, ih] <;> ring

theorem heldAt_of_absent (a : Ptr) (items : List CartItem)
    (hno : ∀ e ∈ items, e.product ≠ a) : heldAt a items = 0 := by
  induction items with
  | nil => simp [heldAt]
  | cons x xs ih =>
    have ih' := ih (fun e he => hno e (List.mem_cons_of_mem _ he))
    simp only [heldAt] at ih'
    simp only [heldAt, List.map_cons, List.sum_cons, hno x (List.mem_cons_self _ _), if_false,
      ih', add_zero]

theorem heldAt_nonneg (a : Ptr) (items : List CartItem)
    (hpos : ∀ e ∈ items, 0 < e.quantity) : 0 ≤ heldAt a items := by
  induction items with
  | nil => simp [heldAt]
  | cons x xs ih =>
    have ih' := ih (fun e he => hpos e (List.mem_cons_of_mem _ he))
    have hx := hpos x (List.mem_cons_self _ _)
    simp only [heldAt, List.map_cons, List.sum_cons] at ih' ⊢
    split <;> omega

theorem heldAt_ge (items : List CartItem) (hpos : ∀ e ∈ items, 0 < e.quantity)
    (e : CartItem) (he : e ∈ items) : e.quantity ≤ heldAt e.product items := by
  induction items with
  | nil => cases he
  | cons x xs ih =>
    have hnn := heldAt_nonneg e.product xs (fun y hy => hpos y (List.mem_cons_of_mem _ hy))
    have hx := hpos x (List.mem_cons_self _ _)
    simp only [heldAt, List.map_cons, List.sum_cons] at hnn ⊢
    rcases List.mem_cons.mp he with hex | hexs
    · subst hex
      rw [if_pos rfl]; omega
    · have ih' := ih (fun y hy => hpos y (List.mem_cons_of_mem _ hy)) hexs
      simp only [heldAt] at ih'
      split <;> omega

theorem foldl_clear_held (items : List CartItem) (h : Heap)
    (huniq : (entryIds h items).Nodup)
    (hpos : ∀ e ∈ items, 0 < e.quantity)
    (hstock : ∀ e ∈ items, 0 ≤ (h e.product).getStock)
    (hfit : ∀ e ∈ items, (h e.product).getStock + e.quantity ≤ 2147483647) (a : Ptr) :
    (items.foldl (fun g x => g.updateStock x.product x.quantity) h a).getStock
      = (h a).getStock + heldAt a items := by
  induction items generalizing h with
  | nil => simp [heldAt]
  | cons x xs ih =>
    simp only [entryIds, List.map_cons, List.nodup_cons, List.mem_map, not_exists,
      not_and] at huniq
    obtain ⟨hx, hxs⟩ := huniq
    have hne : ∀ y ∈ xs, y.product ≠ x.product := by
      intro y hy hc
      exact hx y hy (by rw [hc])
    have hsame : ∀ y ∈ xs, h.updateStock x.product x.quantity y.product = h y.product :=
      fun y hy => Heap.updateStock_other h x.product x.quantity y.product (hne y hy)
    rw [List.foldl_cons, ih (h.updateStock x.product x.quantity)
      (by rw [entryIds_updateStock]; exact hxs)
      (fun y hy => hpos y (List.mem_cons_of_mem _ hy))
      (fun y hy => by rw [hsame y hy]; exact hstock y (List.mem_cons_of_mem _ hy))
      (fun y hy => by rw [hsame y hy]; exact hfit y (List.mem_cons_of_mem _ hy))]
    have h1 := hpos x (List.mem_cons_self _ _)
    have h2 := hstock x (List.mem_cons_self _ _)
    have h3 := hfit x (List.mem_cons_self _ _)
    simp only [heldAt, List.map_cons, List.sum_cons]
    by_cases ha : x.product = a
    · subst ha
      rw [Heap.updateStock_same, ProductObj.getStock_updateStock_fit _ _ (by omega) h3,
        if_pos rfl]
      ring
    · rw [Heap.updateStock_other h x.product x.quantity a (fun hc => ha hc.symm), if_neg ha]
      ring

theorem heldQuantity_eq_heldAt (h : Heap) (inv : InventoryList Ptr) (items : List CartItem)
    (id : Int) (p : Ptr) (hs : inv.searchById h id = some p)
    (hsearch : ∀ e ∈ items, inv.searchById h (h e.product).getId = some e.product) :
    heldQuantity h items id = heldAt p items := by
  have hid := searchById_some_id h inv id p hs
  simp only [heldQuantity, heldAt]
  congr 1
  apply List.map_congr_left
  intro e he
  by_cases hm : (h e.product).getId = id
  · have : e.product = p := by
      have h1 := hsearch e he
      rw [hm, hs] at h1
      exact (Option.some.inj h1).symm
    rw [if_pos hm, if_pos this]
  · have : e.product ≠ p := fun hc => hm (by rw [hc, hid])
    rw [if_neg hm, if_neg this]

theorem reserved_of_parts (init : Heap) (t : System) (h : Heap) (inv : InventoryList Ptr)
    (items : List CartItem)
    (hh : t.heap = h) (hi : t.manager.inventory = inv)
    (hc : t.manager.cart.cartItems.items = items)
    (f1 : ∀ e ∈ items, inv.searchById h (h e.product).getId = some e.product)
    (f2 : (entryIds h items).Nodup)
    (f3 : ∀ e ∈ items, 0 < e.quantity)
    (f4 : ∀ e ∈ items, 0 ≤ (h e.product).getStock)
    (f5 : ∀ a, (h a).getStock + heldAt a items = (init a).getStock) :
    Reserved init t := by
  subst hh hi hc
  exact ⟨f1, f2, f3, f4, f5⟩

theorem reserved_entry_is_found (init : Heap) (s : System) (hr : Reserved init s)
    (id : Int) (p : Ptr) (hs : s.manager.inventory.searchById s.heap id = some p) :
    ∀ e ∈ s.manager.cart.cartItems.items,
      (s.heap e.product).getId = (s.heap p).getId → e.product = p := by
  intro e he hid
  have h1 := hr.searchable e he
  rw [hid, searchById_some_id s.heap _ id p hs, hs] at h1
  exact (Option.some.inj h1).symm

theorem reserved_fit (init : Heap) (s : System) (hr : Reserved init s) :
    ∀ e ∈ s.manager.cart.cartItems.items,
      (s.heap e.product).getStock + e.quantity ≤ 2147483647 := by
  intro e he
  have h1 := heldAt_ge _ hr.positive e he
  have h2 := hr.conserved e.product
  have h3 := ProductObj.getStock_le_max (init e.product)
  omega

theorem reserved_addToCart (init : Heap) (s : System) (productId quantity : Int)
    (hr : Reserved init s) : Reserved init (ECommerceManager.addToCart s productId quantity) := by
  cases hs : s.manager.inventory.searchById s.heap productId with
  | none =>
    have : ECommerceManager.addToCart s productId quantity = s := by
      simp only [ECommerceManager.addToCart, hs]
    rw [this]; exact hr
  | some p =>
    rcases operatorAddAssign_cases s.heap s.manager.cart (some p) quantity with
      hrej | ⟨p', hp', hq, hst⟩
    · have : ECommerceManager.addToCart s productId quantity = s := by
        simp only [ECommerceManager.addToCart, hs, hrej]
      rw [this]; exact hr
    · have hpp : p' = p := (Option.some.inj hp').symm
      subst hpp
      have hk := reserved_entry_is_found init s hr productId p' hs
      have hidp : (s.heap p').getId = productId := searchById_some_id s.heap _ productId p' hs
      have hacc := operatorAddAssign_accept s.heap s.manager.cart p' quantity hq hst
      have hfit : ∀ e ∈ s.manager.cart.cartItems.items,
          (s.heap e.product).getId = (s.heap p').getId → e.quantity + quantity ≤ 2147483647 := by
        intro e he hid
        have h1 := reserved_fit init s hr e he
        rw [hk e he hid] at h1
        omega
      have hmerge := rebuild_eq_merge s.heap p' quantity s.manager.cart.cartItems.items
        hr.unique hr.positive hq hfit
      have hids : ∀ a, ((s.heap.updateStock p' (-quantity)) a).getId = (s.heap a).getId :=
        fun a => Heap.updateStock_getId s.heap p' (-quantity) a
      have hstockp : ((s.heap.updateStock p' (-quantity)) p').getStock
          = (s.heap p').getStock - quantity := by
        have hmax := ProductObj.getStock_le_max (s.heap p')
        rw [Heap.updateStock_same,
          ProductObj.getStock_updateStock_fit _ _ (by omega) (by omega)]
        ring
      apply reserved_of_parts init _ (s.heap.updateStock p' (-quantity)) s.manager.inventory
        (inPlaceMerge s.heap p' quantity s.manager.cart.cartItems.items)
      · simp only [ECommerceManager.addToCart, hs, hacc]
      · simp only [ECommerceManager.addToCart, hs]
      · simp only [ECommerceManager.addToCart, hs, hacc, calculateTotal_cartItems, hmerge]
      · intro e' he'
        rw [searchById_congr s.heap _ _ _ hids, hids]
        rcases mem_inPlaceMerge s.heap p' quantity _ e' he' with hnew | ⟨e, he, hp, _⟩
        · rw [hnew]
          show s.manager.inventory.searchById s.heap (s.heap p').getId = some p'
          rw [hidp, hs]
        · rw [hp]; exact hr.searchable e he
      · have hu := unique_step (s.heap, s.manager.cart) (CartOp.add (some p') quantity) hr.unique
        simp only [CartOp.apply, hacc, calculateTotal_cartItems, hmerge] at hu
        exact hu
      · intro e' he'
        rcases mem_inPlaceMerge s.heap p' quantity _ e' he' with hnew | ⟨e, he, _, hq1 | hq2⟩
        · rw [hnew]; exact hq
        · rw [hq1]; exact hr.positive e he
        · rw [hq2]; have := hr.positive e he; omega
      · intro e' he'
        by_cases hp : e'.product = p'
        · rw [hp, hstockp]; omega
        · rw [Heap.updateStock_other s.heap p' (-quantity) e'.product hp]
          rcases mem_inPlaceMerge s.heap p' quantity _ e' he' with hnew | ⟨e, he, hpe, _⟩
          · exact absurd (by rw [hnew]) hp
          · rw [hpe]; exact hr.stocked e he
      · intro a
        rw [heldAt_inPlaceMerge s.heap p' quantity _ a hk]
        by_cases hp : p' = a
        · subst hp
          rw [hstockp, if_pos rfl]
          have := hr.conserved p'
          omega
        · rw [Heap.updateStock_other s.heap p' (-quantity) a (fun hc => hp hc.symm), if_neg hp]
          have := hr.conserved a
          omega

theorem reserved_removeFromCart (init : Heap) (s : System) (productId : Int)
    (hr : Reserved init s) : Reserved init (ECommerceManager.removeFromCart s productId) := by
  cases hs : s.manager.inventory.searchById s.heap productId with
  | none =>
    have : ECommerceManager.removeFromCart s productId = s := by
      simp only [ECommerceManager.removeFromCart, hs]
    rw [this]; exact hr
  | some p =>
    have hk := reserved_entry_is_found init s hr productId p hs
    have hsub := operatorSubAssign_some s.heap s.manager.cart p
    have hu := unique_step (s.heap, s.manager.cart) (CartOp.remove (some p)) hr.unique
    by_cases hex : ∃ e ∈ s.manager.cart.cartItems.items, (s.heap e.product).getId = (s.heap p).getId
    · obtain ⟨e, he, hid⟩ := hex
      have hep : e.product = p := hk e he hid
      have hfilter := filter_sameProduct_of_nodup s.heap p _ e hr.unique he hid
      rw [hfilter] at hsub
      simp only [List.foldl_cons, List.foldl_nil] at hsub
      have hstockp : ((s.heap.updateStock p e.quantity) p).getStock
          = (s.heap p).getStock + e.quantity := by
        have h1 := hr.positive e he
        have h2 := hr.stocked e he
        have h3 := reserved_fit init s hr e he
        rw [hep] at h2 h3
        rw [Heap.updateStock_same, ProductObj.getStock_updateStock_fit _ _ (by omega) h3]
      have hids : ∀ a, ((s.heap.updateStock p e.quantity) a).getId = (s.heap a).getId :=
        fun a => Heap.updateStock_getId s.heap p e.quantity a
      have hrest : ∀ x ∈ s.manager.cart.cartItems.items.filter (fun x => !sameProduct s.heap p x),
          x ∈ s.manager.cart.cartItems.items ∧ x.product ≠ p := by
        intro x hx
        simp only [List.mem_filter, sameProduct, Bool.not_eq_true', decide_eq_false_iff_not] at hx
        exact ⟨hx.1, fun hc => hx.2 (by rw [hc])⟩
      apply reserved_of_parts init _ (s.heap.updateStock p e.quantity) s.manager.inventory
        (s.manager.cart.cartItems.items.filter (fun x => !sameProduct s.heap p x))
      · simp only [ECommerceManager.removeFromCart, hs, hsub]
      · simp only [ECommerceManager.removeFromCart, hs]
      · simp only [ECommerceManager.removeFromCart, hs, hsub, calculateTotal_cartItems]
      · intro x hx
        rw [searchById_congr s.heap _ _ _ hids, hids]
        exact hr.searchable x (hrest x hx).1
      · simp only [CartOp.apply, hsub, calculateTotal_cartItems] at hu
        exact hu
      · intro x hx
        exact hr.positive x (hrest x hx).1
      · intro x hx
        rw [Heap.updateStock_other s.heap p e.quantity x.product (hrest x hx).2]
        exact hr.stocked x (hrest x hx).1
      · intro a
        have hsplit := heldAt_filter a (sameProduct s.heap p) s.manager.cart.cartItems.items
        rw [hfilter] at hsplit
        have hone : heldAt a [e] = if p = a then e.quantity else 0 := by
          simp [heldAt, hep]
        rw [hone] at hsplit
        have hc := hr.conserved a
        by_cases hp : p = a
        · subst hp
          rw [hstockp]
          rw [if_pos rfl] at hsplit
          omega
        · rw [Heap.updateStock_other s.heap p e.quantity a (fun hc => hp hc.symm)]
          rw [if_neg hp] at hsplit
          omega
    · have hno : ∀ e ∈ s.manager.cart.cartItems.items,
          (s.heap e.product).getId ≠ (s.heap p).getId := fun e he hc => hex ⟨e, he, hc⟩
      obtain ⟨hf1, hf2⟩ := filter_sameProduct_of_absent s.heap p _ hno
      rw [hf1, hf2] at hsub
      simp only [List.foldl_nil] at hsub
      apply reserved_of_parts init _ s.heap s.manager.inventory s.manager.cart.cartItems.items
      · simp only [ECommerceManager.removeFromCart, hs, hsub]
      · simp only [ECommerceManager.removeFromCart, hs]
      · simp only [ECommerceManager.removeFromCart, hs, hsub, calculateTotal_cartItems]
      · exact hr.searchable
      · exact hr.unique
      · exact hr.positive
      · exact hr.stocked
      · exact hr.conserved

theorem checkout_cart_items (s : System) :
    (ECommerceManager.checkout s).manager.cart.cartItems.items = [] := by
  cases hc : s.manager.cart.isEmpty
  · simp only [ECommerceManager.checkout, hc, Bool.false_eq_true, if_false]
    rfl
  · simp only [ECommerceManager.checkout, hc, if_true]
    exact isEmpty_items _ hc

theorem reserved_checkout (init : Heap) (s : System) (hr : Reserved init s) :
    Reserved init (ECommerceManager.checkout s) := by
  cases hc : s.manager.cart.isEmpty
  · apply reserved_of_parts init _
      (s.manager.cart.cartItems.items.foldl (fun g x => g.updateStock x.product x.quantity) s.heap)
      s.manager.inventory []
    · simp only [ECommerceManager.checkout, hc, Bool.false_eq_true, if_false]
      rfl
    · simp only [ECommerceManager.checkout, hc, Bool.false_eq_true, if_false]
    · exact checkout_cart_items s
    · intro e he; cases he
    · simp [entryIds]
    · intro e he; cases he
    · intro e he; cases he
    · intro a
      rw [foldl_clear_held _ s.heap hr.unique hr.positive hr.stocked
        (reserved_fit init s hr) a]
      have := hr.conserved a
      simp only [heldAt, List.map_nil, List.sum_nil, add_zero] at this ⊢
      exact this
  · have : ECommerceManager.checkout s = s := by
      simp [ECommerceManager.checkout, hc]
    rw [this]; exact hr

theorem reserved_addProductToInventory (init : Heap) (s : System) (product : Option Ptr)
    (hr : Reserved init s) :
    Reserved init (ECommerceManager.addProductToInventory s product) := by
  cases product with
  | none => exact hr
  | some x =>
    apply reserved_of_parts init (ECommerceManager.addProductToInventory s (some x)) s.heap
      (s.manager.inventory.addItem x) s.manager.cart.cartItems.items rfl rfl rfl
    · intro e he
      exact searchById_addItem s.heap _ _ _ x (hr.searchable e he)
    · exact hr.unique
    · exact hr.positive
    · exact hr.stocked
    · exact hr.conserved

theorem reserved_step (init : Heap) (s : System) (op : ManagerOp) (hr : Reserved init s) :
    Reserved init (ManagerOp.apply s op) := by
  cases op with
  | addProductToInventory product => exact reserved_addProductToInventory init s product hr
  | addToCart productId quantity => exact reserved_addToCart init s productId quantity hr
  | removeFromCart productId => exact reserved_removeFromCart init s productId hr
  | applyCartDiscount rate => exact hr
  | checkout => exact reserved_checkout init s hr

theorem reserved_start (s : System) (hempty : s.manager.cart.isEmpty = true) :
    Reserved s.heap s := by
  have hitems := isEmpty_items _ hempty
  apply reserved_of_parts s.heap s s.heap s.manager.inventory [] rfl rfl hitems
  · intro e he; cases he
  · simp [entryIds]
  · intro e he; cases he
  · intro e he; cases he
  · intro a; simp [heldAt]

/-- C22: from any program state with an empty cart, after every finite sequence of manager
calls (addToCart, removeFromCart, applyCartDiscount, checkout, and also
addProductToInventory), for every product `p` that `searchById` returns for an id, the
current stock of `p` plus the quantity the cart holds for that id equals the stock `p` had
at the start; and after a further `checkout` the stock of every such product equals its
stock at the start. -/
theorem stock_conservation (s : System) (ops : List ManagerOp)
    (hempty : s.manager.cart.isEmpty = true) :
    (∀ (id : Int) (p : Ptr),
      (runManagerOps s ops).manager.inventory.searchById (runManagerOps s ops).heap id = some p →
      ((runManagerOps s ops).heap p).getStock
          + heldQuantity (runManagerOps s ops).heap
              (runManagerOps s ops).manager.cart.cartItems.items id
        = (s.heap p).getStock) ∧
    (∀ (id : Int) (p : Ptr),
      (ECommerceManager.checkout (runManagerOps s ops)).manager.inventory.searchById
          (ECommerceManager.checkout (runManagerOps s ops)).heap id = some p →
      ((ECommerceManager.checkout (runManagerOps s ops)).heap p).getStock
        = (s.heap p).getStock) := by
  have hr : Reserved s.heap (runManagerOps s ops) :=
    foldl_manager_invariant (Reserved s.heap) (reserved_step s.heap) ops s
      (reserved_start s hempty)
  constructor
  · intro id p hs
    rw [heldQuantity_eq_heldAt _ _ _ id p hs hr.searchable]
    exact hr.conserved p
  · intro id p _
    have hr2 := reserved_checkout s.heap _ hr
    have := hr2.conserved p
    rw [checkout_cart_items] at this
    simpa [heldAt] using this

/-- Witness of C22: the scenario manager (A with stock 5, empty cart) after adding 3 and
then 1 of A, a removal of an unknown id and a cart discount: A's stock is 1, the cart holds
4 of id 1, and after a checkout A's stock is 5 again. -/
theorem stock_conservation_witness :
    shopA.manager.cart.isEmpty = true ∧
    ((runManagerOps shopA [ManagerOp.addToCart 1 3, ManagerOp.addToCart 1 1,
        ManagerOp.removeFromCart 2, ManagerOp.applyCartDiscount 0]).heap 0).getStock = 1 ∧
    ((runManagerOps shopA [ManagerOp.addToCart 1 3, ManagerOp.addToCart 1 1,
        ManagerOp.removeFromCart 2, ManagerOp.applyCartDiscount 0]).heap 0).getStock
      + heldQuantity
          (runManagerOps shopA [ManagerOp.addToCart 1 3, ManagerOp.addToCart 1 1,
            ManagerOp.removeFromCart 2, ManagerOp.applyCartDiscount 0]).heap
          (runManagerOps shopA [ManagerOp.addToCart 1 3, ManagerOp.addToCart 1 1,
            ManagerOp.removeFromCart 2, ManagerOp.applyCartDiscount 0]).manager.cart.cartItems.items
          1
      = (shopA.heap 0).getStock ∧
    ((ECommerceManager.checkout (runManagerOps shopA [ManagerOp.addToCart 1 3,
        ManagerOp.addToCart 1 1, ManagerOp.removeFromCart 2,
        ManagerOp.applyCartDiscount 0])).heap 0).getStock
      = (shopA.heap 0).getStock :=
  ⟨by decide, by decide,
   (stock_conservation shopA _ (by decide)).1 1 0 (by decide),
   (stock_conservation shopA _ (by decide)).2 1 0 (by decide)⟩

end ECommerce
